import Mathlib

/-!
# Layered configuration loader (package `config`)

A shallow embedding of `config/config.go`: the value coercer `setValue`, the
schema walks `setDefaults` and `setEnv`, the file overlay `loadFile`, and the
facade operations `Loader.Load` and `Loader.refresh`.

Modelling conventions.

* Go strings are Lean `String`s; the parsers of the Go standard library work on
  the character list of the token.
* A structure value reached through `reflect` is a `Struct`: the sequence of its
  fields in declaration order, each field being either a leaf or a nested
  structure (held by value or through a non-nil pointer).  The heap is
  tree-shaped: no two pointers alias and no structure contains itself.
* A mutating function returns the new state of what it mutates together with
  the Go `error` it returns (`none` is `nil`).
* `int` and `uint` are 64 bits wide.
* The operating system and the decoders of `encoding/json` and `yaml.v3` are
  parameters, collected in `World`.
-/

namespace Config

/-! ## Errors -/

/-- Go `error` values produced or forwarded by the package. -/
inductive GoError where
  /-- `*strconv.NumError`: function, offending text, and whether the cause is
  `ErrRange` (otherwise `ErrSyntax`). -/
  | numError (fn : String) (num : String) (outOfRange : Bool)
  /-- error of `time.ParseDuration`: `msg + quote(text)` -/
  | durationError (msg : String) (text : String)
  /-- error of `time.ParseDuration`:
  `"time: unknown unit " + quote(unit) + " in duration " + quote(text)` -/
  | durationUnitError (unit : String) (text : String)
  /-- error returned by a collaborator outside the package (file system,
  decoders, `strconv.ParseFloat`) -/
  | external (msg : String)
  /-- `fmt.Errorf("unsupported file extension: %s", ext)` -/
  | unsupportedExt (ext : String)
  /-- `fmt.Errorf(context + ": %w", cause)` -/
  | wrap (context : String) (cause : GoError)
  deriving DecidableEq, Repr

deriving instance DecidableEq for Except

/-! ## Standard-library parsers -/

/-- Byte test `'0' <= c && c <= '9'`. -/
def isDigit (c : Char) : Bool := decide (48 ≤ c.toNat) && decide (c.toNat ≤ 57)

/-- Value `c - '0'` of a digit. -/
def digitVal (c : Char) : Nat := c.toNat - 48

/-- `strconv.ParseBool`. -/
def parseBool (s : String) : Except GoError Bool :=
  if s = "1" ∨ s = "t" ∨ s = "T" ∨ s = "true" ∨ s = "TRUE" ∨ s = "True" then .ok true
  else if s = "0" ∨ s = "f" ∨ s = "F" ∨ s = "false" ∨ s = "FALSE" ∨ s = "False" then .ok false
  else .error (.numError "ParseBool" s false)

/-- Largest `uint64`. -/
def maxUint64 : Nat := 2 ^ 64 - 1

/-- The digit loop of `strconv.ParseUint(s, 10, 64)`: `n` is the accumulator,
`fn` and `s0` are what a `NumError` reports. -/
def parseUintLoop (fn s0 : String) : List Char → Nat → Except GoError Nat
  | [], n => .ok n
  | c :: cs, n =>
    if isDigit c then
      if n ≥ maxUint64 / 10 + 1 then .error (.numError fn s0 true)
      else if n * 10 + digitVal c > maxUint64 then .error (.numError fn s0 true)
      else parseUintLoop fn s0 cs (n * 10 + digitVal c)
    else .error (.numError fn s0 false)

/-- The unsigned parse shared by `ParseUint` and `ParseInt` (base 10, 64 bits),
on the characters `cs`. -/
def parseUintChars (fn s0 : String) (cs : List Char) : Except GoError Nat :=
  if cs = [] then .error (.numError fn s0 false) else parseUintLoop fn s0 cs 0

/-- `strconv.ParseUint(s, 10, 64)`. -/
def parseUint (s : String) : Except GoError Nat :=
  parseUintChars "ParseUint" s s.toList

/-- `strconv.ParseInt(s, 10, 64)`: optional sign, unsigned parse, range check
against `1 << 63`. -/
def parseInt (s : String) : Except GoError Int :=
  match s.toList with
  | [] => .error (.numError "ParseInt" s false)
  | c :: cs =>
    let neg : Bool := c = '-'
    let digits : List Char := if c = '+' ∨ c = '-' then cs else c :: cs
    match parseUintChars "ParseInt" s digits with
    -- a range error of the unsigned parse carries `maxUint64`, which the range
    -- check rejects again for either sign, with the same `NumError`
    | .error e => .error e
    | .ok un =>
      if !neg && un ≥ 2 ^ 63 then .error (.numError "ParseInt" s true)
      else if neg && un > 2 ^ 63 then .error (.numError "ParseInt" s true)
      else .ok (if neg then - (un : Int) else (un : Int))

/-- Table `unitMap` of package `time`: nanoseconds per unit. -/
def unitNanos (u : String) : Option Nat :=
  if u = "ns" then some 1
  else if u = "us" ∨ u = "µs" ∨ u = "μs" then some 1000
  else if u = "ms" then some 1000000
  else if u = "s" then some 1000000000
  else if u = "m" then some 60000000000
  else if u = "h" then some 3600000000000
  else none

/-- `leadingInt` of package `time`: consumes the leading digits, accumulating
into `x`; `none` is `errLeadingInt` (overflow past `1 << 63`). -/
def leadingInt : List Char → Nat → Option (Nat × List Char)
  | [], x => some (x, [])
  | c :: cs, x =>
    if isDigit c then
      if x > 2 ^ 63 / 10 then none
      else if x * 10 + digitVal c > 2 ^ 63 then none
      else leadingInt cs (x * 10 + digitVal c)
    else some (x, c :: cs)

/-- `leadingFraction` of package `time`: consumes the leading digits and stops
accumulating precision on overflow.  Returns the digits read as a number, the
scale (a power of ten) and the unread text. -/
def leadingFraction : List Char → Nat → Nat → Bool → Nat × Nat × List Char
  | [], x, scale, _ => (x, scale, [])
  | c :: cs, x, scale, overflow =>
    if isDigit c then
      if overflow then leadingFraction cs x scale true
      else if x > (2 ^ 63 - 1) / 10 then leadingFraction cs x scale true
      else if x * 10 + digitVal c > 2 ^ 63 then leadingFraction cs x scale true
      else leadingFraction cs (x * 10 + digitVal c) (scale * 10) false
    else (x, scale, c :: cs)

/-- Byte test `c == '.' || '0' <= c && c <= '9'` that ends a unit name. -/
def isDotOrDigit (c : Char) : Bool := c = '.' || isDigit c

/-- The optional fraction of a group in `time.ParseDuration`, a dot followed by
digits: the fraction digits as a number, the scale, the unread text, and whether
a digit was read (`post`).  Without a leading dot nothing is consumed. -/
def fractionPart : List Char → Nat × Nat × List Char × Bool
  | [] => (0, 1, [], false)
  | c :: t =>
    if c = '.' then
      ((leadingFraction t 0 1 false).1, (leadingFraction t 0 1 false).2.1,
        (leadingFraction t 0 1 false).2.2,
        decide (t.length ≠ (leadingFraction t 0 1 false).2.2.length))
    else (0, 1, c :: t, false)

/-- One iteration of the loop `for s != ""` of `time.ParseDuration` on the
non-empty text `c :: cs`: reads one `number unit` group and adds it to the
running total `d`, kept modulo `2 ^ 64` as in `uint64`.  Returns the unread
text and the new total.  `frac f unit scale` stands for
`uint64(float64(f) * (float64(unit) / scale))`, the only floating-point step. -/
def durationGroup (frac : Nat → Nat → Nat → Nat) (orig : String) (c : Char) (cs : List Char)
    (d : Nat) : Except GoError (List Char × Nat) :=
  if !isDotOrDigit c then .error (.durationError "time: invalid duration " orig)
  else
    match leadingInt (c :: cs) 0 with
    | none => .error (.durationError "time: invalid duration " orig)
    | some (v, s1) =>
      let pre : Bool := (c :: cs).length ≠ s1.length
      let f := (fractionPart s1).1
      let scale := (fractionPart s1).2.1
      let s2 := (fractionPart s1).2.2.1
      let post := (fractionPart s1).2.2.2
      if !pre && !post then .error (.durationError "time: invalid duration " orig)
      else
        let u := s2.takeWhile (fun x => !isDotOrDigit x)
        let s3 := s2.dropWhile (fun x => !isDotOrDigit x)
        if u = [] then .error (.durationError "time: missing unit in duration " orig)
        else
          match unitNanos (String.mk u) with
          | none => .error (.durationUnitError (String.mk u) orig)
          | some unit =>
            if v > 2 ^ 63 / unit then .error (.durationError "time: invalid duration " orig)
            else if f > 0 then
              -- `v *= unit; v += frac; d += v`, each followed by its overflow check
              if (v * unit + frac f unit scale) % 2 ^ 64 > 2 ^ 63 then
                .error (.durationError "time: invalid duration " orig)
              else if (d + (v * unit + frac f unit scale) % 2 ^ 64) % 2 ^ 64 > 2 ^ 63 then
                .error (.durationError "time: invalid duration " orig)
              else .ok (s3, (d + (v * unit + frac f unit scale) % 2 ^ 64) % 2 ^ 64)
            else
              -- `v *= unit; d += v`, followed by the overflow check
              if (d + v * unit) % 2 ^ 64 > 2 ^ 63 then
                .error (.durationError "time: invalid duration " orig)
              else .ok (s3, (d + v * unit) % 2 ^ 64)

/-- The loop `for s != ""` of `time.ParseDuration`.  Every iteration consumes at
least the unit, so `fuel` equal to the length of the text is never exhausted
(`parseDurationLoop_fuel`). -/
def parseDurationLoop (frac : Nat → Nat → Nat → Nat) (orig : String) :
    Nat → List Char → Nat → Except GoError Nat
  | _, [], d => .ok d
  | 0, _ :: _, _ => .error (.durationError "time: invalid duration " orig)
  | fuel + 1, c :: cs, d =>
    match durationGroup frac orig c cs d with
    | .error e => .error e
    | .ok (rest, d1) => parseDurationLoop frac orig fuel rest d1

/-- `time.ParseDuration`: optional sign, the special case `"0"`, the group loop,
and the final range check. -/
def parseDuration (frac : Nat → Nat → Nat → Nat) (s : String) : Except GoError Int :=
  let neg : Bool := s.toList.head? = some '-'
  let body : List Char :=
    match s.toList with
    | c :: cs => if c = '-' ∨ c = '+' then cs else c :: cs
    | [] => []
  if body = ['0'] then .ok 0
  else if body = [] then .error (.durationError "time: invalid duration " s)
  else
    match parseDurationLoop frac s body.length body 0 with
    | .error e => .error e
    | .ok d =>
      if neg then .ok (- (d : Int))
      else if d > 2 ^ 63 - 1 then .error (.durationError "time: invalid duration " s)
      else .ok (d : Int)

/-! ## Strings -/

/-- `unicode.IsSpace`. -/
def isSpace (c : Char) : Bool :=
  decide (c.toNat ∈ [0x09, 0x0A, 0x0B, 0x0C, 0x0D, 0x20, 0x85, 0xA0, 0x1680, 0x2028, 0x2029,
    0x202F, 0x205F, 0x3000]) || (decide (0x2000 ≤ c.toNat) && decide (c.toNat ≤ 0x200A))

/-- `strings.TrimSpace` on the characters of a string: leading white space is
dropped, then trailing white space. -/
def trimSpace (cs : List Char) : List Char :=
  ((cs.dropWhile isSpace).reverse.dropWhile isSpace).reverse

/-- `strings.Split(s, ",")` on the characters of a string: the pieces between
consecutive commas, in order. -/
def splitComma : List Char → List (List Char)
  | [] => [[]]
  | c :: cs =>
    if c = ',' then [] :: splitComma cs
    else
      match splitComma cs with
      | [] => [[c]]
      | p :: ps => (c :: p) :: ps

/-- Lower-casing of `strings.ToLower` on one character.  Only `A`-`Z` are
mapped.  The comparison of an extension with `.json`, `.yaml` and `.yml` is
that of the code all the same: the two characters outside ASCII whose lower case
is an ASCII letter give `i` and `k`, which are letters of none of the three.
For an extension with an upper-case letter outside ASCII the text carried by
the unsupported-extension error keeps that letter, where the code lower-cases
it. -/
def lowerChar (c : Char) : Char :=
  if 65 ≤ c.toNat ∧ c.toNat ≤ 90 then Char.ofNat (c.toNat + 32) else c

/-- `strings.ToLower`. -/
def toLower (s : String) : String := String.mk (s.toList.map lowerChar)

/-- The scan of `filepath.Ext` from the end of the path towards its start, on
the reversed path: it stops at a path separator (`/`) and returns the suffix
starting at the first dot it meets. -/
def extScan : List Char → List Char → List Char
  | [], _ => []
  | c :: cs, suffix =>
    if c = '/' then []
    else if c = '.' then '.' :: suffix
    else extScan cs (c :: suffix)

/-- `filepath.Ext`. -/
def filepathExt (path : String) : String := String.mk (extScan path.toList.reverse [])

/-! ## Data model -/

/-- Signed integer types a field can have: the five kinds `Int` ... `Int64`,
and `time.Duration`, whose kind is `Int64` and which `setValue` recognises by
type identity. -/
inductive IntType where
  | int | int8 | int16 | int32 | int64 | duration
  deriving DecidableEq, Repr

/-- Width in bits of a signed integer type. -/
def IntType.bits : IntType → Nat
  | .int => 64
  | .int8 => 8
  | .int16 => 16
  | .int32 => 32
  | .int64 => 64
  | .duration => 64

/-- Unsigned integer kinds `Uint` ... `Uint64`. -/
inductive UintType where
  | uint | uint8 | uint16 | uint32 | uint64
  deriving DecidableEq, Repr

/-- Width in bits of an unsigned integer kind. -/
def UintType.bits : UintType → Nat
  | .uint => 64
  | .uint8 => 8
  | .uint16 => 16
  | .uint32 => 32
  | .uint64 => 64

/-- Floating-point kinds. -/
inductive FloatType where
  | float32 | float64
  deriving DecidableEq, Repr

/-- Conversion of an `int64` to a signed type of the given width, as done by
`reflect.Value.SetInt`: two's-complement wrap-around. -/
def wrapInt (bits : Nat) (x : Int) : Int :=
  (x + 2 ^ (bits - 1)) % 2 ^ bits - 2 ^ (bits - 1)

/-- Conversion of a `uint64` to an unsigned type of the given width, as done by
`reflect.Value.SetUint`. -/
def wrapUint (bits : Nat) (n : Nat) : Nat := n % 2 ^ bits

/-- The current content of a leaf field, by kind.  A float is the bit pattern of
`v.Float()`.  A nil pointer of any element type is `nilPtr`.  The kinds
`setValue` has no case for (maps, arrays, interfaces, non-nil pointers to
something that is not a structure, ...) are `other`, of which only being the
zero value is observable. -/
inductive Leaf where
  | str (s : String)
  | bool (b : Bool)
  | int (t : IntType) (i : Int)
  | uint (t : UintType) (n : Nat)
  | float (t : FloatType) (bits : Nat)
  | strSlice (xs : Option (List String))
  | otherSlice (isNil : Bool)
  | nilPtr
  | other (zero : Bool)
  deriving DecidableEq, Repr

/-- What `reflect` tells about a field apart from its value: the name, whether
`CanSet` holds, and the results of `Tag.Get("default")` and `Tag.Get("env")`
(the empty string when the key is absent). -/
structure FieldInfo where
  name : String
  canSet : Bool
  defaultTag : String
  envTag : String
  deriving DecidableEq, Repr

/-- A structure value: its fields in declaration order.  `leaf` is a field that
the walks treat as a leaf; `nest` is a field of kind `Struct` (`viaPtr = false`)
or a non-nil pointer to a structure (`viaPtr = true`) with the fields of that
structure; `rest` are the fields that follow. -/
inductive Struct where
  | done
  | leaf (info : FieldInfo) (v : Leaf) (rest : Struct)
  | nest (info : FieldInfo) (viaPtr : Bool) (inner : Struct) (rest : Struct)
  deriving DecidableEq, Repr

/-- Content of a file. -/
abbrev Bytes := List Nat

/-- What lies outside the package: the process environment, the file system, the
two decoders, and the floating-point routines.  A decoder receives the file
content and the target structure and returns the target as it leaves it,
together with its error. -/
structure World where
  /-- `os.LookupEnv`: `none` when the variable is unset -/
  lookupEnv : String → Option String
  /-- `os.ReadFile` -/
  readFile : String → Except GoError Bytes
  /-- `json.Unmarshal(data, ptr)` -/
  jsonUnmarshal : Bytes → Struct → Struct × Option GoError
  /-- `yaml.Unmarshal(data, ptr)` -/
  yamlUnmarshal : Bytes → Struct → Struct × Option GoError
  /-- `strconv.ParseFloat(s, 64)`, as the bit pattern of the result -/
  parseFloat : String → Except GoError Nat
  /-- rounding `float64(float32(x))` on bit patterns, done by `SetFloat` on a
  `float32` field -/
  toFloat32 : Nat → Nat
  /-- `uint64(float64(f) * (float64(unit) / scale))` of `time.ParseDuration` -/
  durationFrac : Nat → Nat → Nat → Nat
  /-- the zero test of `reflect.Value.IsZero` on a float, given its bit pattern:
  `math.Float64bits(x) == 0` before Go 1.22, `x == 0` since -/
  floatIsZero : Nat → Bool

/-- `os.Getenv`: the value of the variable, empty when it is unset. -/
def World.getenv (w : World) (key : String) : String := (w.lookupEnv key).getD ""

/-! ## Value coercer -/

/-- `reflect.Value.IsZero` on a leaf. -/
def isZero (w : World) : Leaf → Bool
  | .str s => s = ""
  | .bool b => !b
  | .int _ i => i = 0
  | .uint _ n => n = 0
  | .float _ bits => w.floatIsZero bits
  | .strSlice xs => xs.isNone
  | .otherSlice isNil => isNil
  | .nilPtr => true
  | .other zero => zero

/-- `setValue`: converts `s` to the type of the field and stores it.  Returns the
field as the call leaves it and the error returned. -/
def setValue (w : World) (v : Leaf) (s : String) : Leaf × Option GoError :=
  match v with
  | .str _ => (.str s, none)
  | .bool b =>
    match parseBool s with
    | .error e => (.bool b, some e)
    | .ok b1 => (.bool b1, none)
  | .int t i =>
    match parseInt s with
    | .error e =>
      if t = .duration then
        match parseDuration w.durationFrac s with
        | .error e1 => (.int t i, some e1)
        | .ok d => (.int t (wrapInt t.bits d), none)
      else (.int t i, some e)
    | .ok i1 => (.int t (wrapInt t.bits i1), none)
  | .uint t n =>
    match parseUint s with
    | .error e => (.uint t n, some e)
    | .ok n1 => (.uint t (wrapUint t.bits n1), none)
  | .float t bits =>
    match w.parseFloat s with
    | .error e => (.float t bits, some e)
    | .ok f => (.float t (if t = .float32 then w.toFloat32 f else f), none)
  | .strSlice _ =>
    (.strSlice (some ((splitComma s.toList).map (fun part => String.mk (trimSpace part)))), none)
  | .otherSlice isNil => (.otherSlice isNil, none)
  | .nilPtr => (.nilPtr, none)
  | .other zero => (.other zero, none)

/-! ## Schema walks -/

/-- `setDefaults`: the loop over the fields of a structure.  A field that cannot
be set is skipped; a nested structure is walked, and its error returned as is;
a leaf with a non-empty `default` tag and a zero value is set from the tag, and
a failure is wrapped with the field name and ends the walk.  A nil pointer is a
leaf: `fieldVal.Elem()` of a nil pointer has kind `Invalid`, so the test for a
pointer to a structure fails and the field reaches the tag handling, where
`setValue` has no case for kind `Ptr`. -/
def setDefaults (w : World) : Struct → Struct × Option GoError
  | .done => (.done, none)
  | .leaf info v rest =>
    if !info.canSet then
      ((.leaf info v (setDefaults w rest).1), (setDefaults w rest).2)
    else if info.defaultTag ≠ "" ∧ isZero w v = true then
      match (setValue w v info.defaultTag).2 with
      | some e =>
        (.leaf info (setValue w v info.defaultTag).1 rest,
          some (.wrap ("failed to set default for field " ++ info.name) e))
      | none =>
        (.leaf info (setValue w v info.defaultTag).1 (setDefaults w rest).1, (setDefaults w rest).2)
    else
      ((.leaf info v (setDefaults w rest).1), (setDefaults w rest).2)
  | .nest info viaPtr inner rest =>
    if !info.canSet then
      ((.nest info viaPtr inner (setDefaults w rest).1), (setDefaults w rest).2)
    else
      match (setDefaults w inner).2 with
      | some e => (.nest info viaPtr (setDefaults w inner).1 rest, some e)
      | none =>
        (.nest info viaPtr (setDefaults w inner).1 (setDefaults w rest).1, (setDefaults w rest).2)

/-- `processDefaults`, on the structure the pointer refers to. -/
def processDefaults (w : World) (cfg : Struct) : Struct × Option GoError := setDefaults w cfg

/-- `setEnv`: the loop over the fields of a structure, with the same skipping
and recursion as `setDefaults` (a nil pointer fails the test `!fieldVal.IsNil()`
and is a leaf).  A leaf with a non-empty `env` tag whose variable has a
non-empty value is set from it, whatever it holds; a failure is wrapped with the
variable and the field name and ends the walk. -/
def setEnv (w : World) : Struct → Struct × Option GoError
  | .done => (.done, none)
  | .leaf info v rest =>
    if !info.canSet then
      ((.leaf info v (setEnv w rest).1), (setEnv w rest).2)
    else if info.envTag ≠ "" ∧ w.getenv info.envTag ≠ "" then
      match (setValue w v (w.getenv info.envTag)).2 with
      | some e =>
        (.leaf info (setValue w v (w.getenv info.envTag)).1 rest,
          some (.wrap ("failed to set env " ++ info.envTag ++ " for field " ++ info.name) e))
      | none =>
        (.leaf info (setValue w v (w.getenv info.envTag)).1 (setEnv w rest).1, (setEnv w rest).2)
    else
      ((.leaf info v (setEnv w rest).1), (setEnv w rest).2)
  | .nest info viaPtr inner rest =>
    if !info.canSet then
      ((.nest info viaPtr inner (setEnv w rest).1), (setEnv w rest).2)
    else
      match (setEnv w inner).2 with
      | some e => (.nest info viaPtr (setEnv w inner).1 rest, some e)
      | none =>
        (.nest info viaPtr (setEnv w inner).1 (setEnv w rest).1, (setEnv w rest).2)

/-- `processEnv`, on the structure the pointer refers to. -/
def processEnv (w : World) (cfg : Struct) : Struct × Option GoError := setEnv w cfg

/-! ## File overlay -/

/-- `loadFile`: reads the file, then dispatches on the lower-cased extension of
the path.  A decoder writes into the target; the other two exits leave it as it
was. -/
def loadFile (w : World) (path : String) (cfg : Struct) : Struct × Option GoError :=
  match w.readFile path with
  | .error e => (cfg, some e)
  | .ok data =>
    if toLower (filepathExt path) = ".json" then w.jsonUnmarshal data cfg
    else if toLower (filepathExt path) = ".yaml" ∨ toLower (filepathExt path) = ".yml" then
      w.yamlUnmarshal data cfg
    else (cfg, some (.unsupportedExt (toLower (filepathExt path))))

/-! ## Loader -/

/-- The `Loader`: the configured file path (empty when none), the structure
`cfg` points to, and whether a callback is registered (`onUpdateFunc != nil`).
The lock and the stop channel play no part in a single call. -/
structure Loader where
  configFile : String
  cfg : Struct
  onUpdateFunc : Bool
  deriving DecidableEq, Repr

/-- Step 2 of `Load` and of `refresh`: `loadFile` into `target` when a path is
configured, nothing otherwise. -/
def Loader.fileStage (w : World) (l : Loader) (target : Struct) : Struct × Option GoError :=
  if l.configFile ≠ "" then loadFile w l.configFile target else (target, none)

/-- `Loader.Load`: defaults, then the file when a path is configured, then the
environment, each applied to `l.cfg` in place; the first error is wrapped with
its stage and returned.  Returns `l.cfg` as the call leaves it and the error. -/
def Loader.Load (w : World) (l : Loader) : Struct × Option GoError :=
  match (processDefaults w l.cfg).2 with
  | some e => ((processDefaults w l.cfg).1, some (.wrap "failed to process defaults" e))
  | none =>
    match (l.fileStage w (processDefaults w l.cfg).1).2 with
    | some e =>
      ((l.fileStage w (processDefaults w l.cfg).1).1, some (.wrap "failed to load config file" e))
    | none =>
      match (processEnv w (l.fileStage w (processDefaults w l.cfg).1).1).2 with
      | some e =>
        ((processEnv w (l.fileStage w (processDefaults w l.cfg).1).1).1,
          some (.wrap "failed to process env vars" e))
      | none => ((processEnv w (l.fileStage w (processDefaults w l.cfg).1).1).1, none)

/-- Zero value of the type of a leaf. -/
def zeroLeaf : Leaf → Leaf
  | .str _ => .str ""
  | .bool _ => .bool false
  | .int t _ => .int t 0
  | .uint t _ => .uint t 0
  | .float t _ => .float t 0
  | .strSlice _ => .strSlice none
  | .otherSlice _ => .otherSlice true
  | .nilPtr => .nilPtr
  | .other _ => .other true

/-- The structure `reflect.New(t.Elem())` points to: every leaf is zero, a
structure held by value is zero field by field, and a pointer to a structure is
nil. -/
def zeroStruct : Struct → Struct
  | .done => .done
  | .leaf info v rest => .leaf info (zeroLeaf v) (zeroStruct rest)
  | .nest info false inner rest => .nest info false (zeroStruct inner) (zeroStruct rest)
  | .nest info true _ rest => .leaf info .nilPtr (zeroStruct rest)

/-- What one call of `Loader.refresh` does: `cfg` is `l.cfg` after the call,
`built` the fresh instance as the call leaves it, and `callback` the argument
the registered callback was invoked with (`none` when it was not invoked). -/
structure RefreshResult where
  cfg : Struct
  built : Struct
  callback : Option Struct
  deriving DecidableEq, Repr

/-- `Loader.refresh`: builds a zero instance, applies the three layers to it and
returns at the first failure; otherwise invokes the callback, if one is
registered, with the new instance.  No statement assigns to `l.cfg`.  The early
return for a `cfg` that is not a pointer does not arise: `cfg` is a pointer to
a structure in this model. -/
def Loader.refresh (w : World) (l : Loader) : RefreshResult :=
  match (processDefaults w (zeroStruct l.cfg)).2 with
  | some _ => ⟨l.cfg, (processDefaults w (zeroStruct l.cfg)).1, none⟩
  | none =>
    match (l.fileStage w (processDefaults w (zeroStruct l.cfg)).1).2 with
    | some _ => ⟨l.cfg, (l.fileStage w (processDefaults w (zeroStruct l.cfg)).1).1, none⟩
    | none =>
      match (processEnv w (l.fileStage w (processDefaults w (zeroStruct l.cfg)).1).1).2 with
      | some _ =>
        ⟨l.cfg, (processEnv w (l.fileStage w (processDefaults w (zeroStruct l.cfg)).1).1).1, none⟩
      | none =>
        ⟨l.cfg, (processEnv w (l.fileStage w (processDefaults w (zeroStruct l.cfg)).1).1).1,
          if l.onUpdateFunc then
            some (processEnv w (l.fileStage w (processDefaults w (zeroStruct l.cfg)).1).1).1
          else none⟩

/-! ## Observing fields

A path addresses a field: the index of a field among the fields of the
structure, followed, for a nested structure, by the path inside it. -/

/-- The leaf field at a path, with its description, if the path leads to one. -/
def Struct.leafAt : Struct → List Nat → Option (FieldInfo × Leaf)
  | .done, _ => none
  | .leaf _ _ _, [] => none
  | .leaf info v _, [0] => some (info, v)
  | .leaf _ _ _, 0 :: _ :: _ => none
  | .leaf _ _ rest, (i + 1) :: p => rest.leafAt (i :: p)
  | .nest _ _ _ _, [] => none
  | .nest _ _ inner _, 0 :: p => inner.leafAt p
  | .nest _ _ _ rest, (i + 1) :: p => rest.leafAt (i :: p)

/-- Whether the field at a path is assignable: `CanSet` holds for it and for
every structure field the path passes through, so that the walks reach it. -/
def Struct.settableAt : Struct → List Nat → Bool
  | .done, _ => false
  | .leaf _ _ _, [] => false
  | .leaf info _ _, [0] => info.canSet
  | .leaf _ _ _, 0 :: _ :: _ => false
  | .leaf _ _ rest, (i + 1) :: p => rest.settableAt (i :: p)
  | .nest _ _ _ _, [] => false
  | .nest info _ inner _, 0 :: p => info.canSet && inner.settableAt p
  | .nest _ _ _ rest, (i + 1) :: p => rest.settableAt (i :: p)

/-! ## The common shape of the two walks -/

/-- The loop shared by `setDefaults` and `setEnv`.  `rule info v` tells what the
walk does at an assignable leaf: `none` leaves it alone, `some (token, context)`
calls `setValue` with `token` and, on failure, returns the error wrapped with
`context`. -/
def walk (w : World) (rule : FieldInfo → Leaf → Option (String × String)) :
    Struct → Struct × Option GoError
  | .done => (.done, none)
  | .leaf info v rest =>
    match (if info.canSet = true then rule info v else none) with
    | none => (.leaf info v (walk w rule rest).1, (walk w rule rest).2)
    | some (token, context) =>
      match (setValue w v token).2 with
      | some e => (.leaf info (setValue w v token).1 rest, some (.wrap context e))
      | none => (.leaf info (setValue w v token).1 (walk w rule rest).1, (walk w rule rest).2)
  | .nest info viaPtr inner rest =>
    if info.canSet = true then
      match (walk w rule inner).2 with
      | some e => (.nest info viaPtr (walk w rule inner).1 rest, some e)
      | none =>
        (.nest info viaPtr (walk w rule inner).1 (walk w rule rest).1, (walk w rule rest).2)
    else (.nest info viaPtr inner (walk w rule rest).1, (walk w rule rest).2)

/-- The leaf rule of `setDefaults`: a non-empty `default` tag on a zero field. -/
def defaultRule (w : World) (info : FieldInfo) (v : Leaf) : Option (String × String) :=
  if info.defaultTag ≠ "" ∧ isZero w v = true then
    some (info.defaultTag, "failed to set default for field " ++ info.name)
  else none

/-- The leaf rule of `setEnv`: a non-empty `env` tag naming a variable with a
non-empty value. -/
def envRule (w : World) (info : FieldInfo) (_v : Leaf) : Option (String × String) :=
  if info.envTag ≠ "" ∧ w.getenv info.envTag ≠ "" then
    some (w.getenv info.envTag,
      "failed to set env " ++ info.envTag ++ " for field " ++ info.name)
  else none

/-- Whether `setValue` has an assigning case for the kind of the leaf. -/
def Leaf.assignsFromText : Leaf → Bool
  | .str _ => true
  | .bool _ => true
  | .int _ _ => true
  | .uint _ _ => true
  | .float _ _ => true
  | .strSlice _ => true
  | .otherSlice _ => false
  | .nilPtr => false
  | .other _ => false

/-! ## Literals, in the words of the specification -/

/-- The number a list of decimal digits denotes, continuing from `n`. -/
def decimalFrom (n : Nat) (cs : List Char) : Nat :=
  cs.foldl (fun a c => a * 10 + digitVal c) n

/-- The number a list of decimal digits denotes. -/
def decimalValue (cs : List Char) : Nat := decimalFrom 0 cs

/-- A base-10 unsigned integer: one or more decimal digits. -/
def isBase10Unsigned (s : String) : Bool :=
  !s.toList.isEmpty && s.toList.all isDigit

/-- The digits of a base-10 integer: the text after an optional sign. -/
def signedDigits (s : String) : List Char :=
  match s.toList with
  | [] => []
  | c :: cs => if c = '+' ∨ c = '-' then cs else c :: cs

/-- A base-10 integer: an optional sign followed by one or more decimal
digits. -/
def isBase10Integer (s : String) : Bool :=
  !(signedDigits s).isEmpty && (signedDigits s).all isDigit

/-- The integer a base-10 integer denotes. -/
def base10Value (s : String) : Int :=
  if s.toList.head? = some '-' then - (decimalValue (signedDigits s) : Int)
  else (decimalValue (signedDigits s) : Int)

/-- A boolean literal: one of the twelve texts `strconv.ParseBool` documents. -/
def isBoolLiteral (s : String) : Bool :=
  decide (s ∈ ["1", "t", "T", "TRUE", "true", "True", "0", "f", "F", "FALSE", "false", "False"])

/-! ## Zero values, in the words of the specification -/

/-- The leaf holds the zero value of its type: the empty string, `false`, 0,
`+0`, a nil slice, a nil pointer. -/
def Leaf.zeroValued : Leaf → Bool
  | .str s => s = ""
  | .bool b => b = false
  | .int _ i => i = 0
  | .uint _ n => n = 0
  | .float _ bits => bits = 0
  | .strSlice xs => xs = none
  | .otherSlice isNil => isNil = true
  | .nilPtr => true
  | .other zero => zero = true

/-- The two leaves are values of the same type. -/
def Leaf.sameType : Leaf → Leaf → Bool
  | .str _, .str _ => true
  | .bool _, .bool _ => true
  | .int t _, .int t1 _ => t = t1
  | .uint t _, .uint t1 _ => t = t1
  | .float t _, .float t1 _ => t = t1
  | .strSlice _, .strSlice _ => true
  | .otherSlice _, .otherSlice _ => true
  | .nilPtr, .nilPtr => true
  | .other _, .other _ => true
  | _, _ => false

/-- The structure `z` is the zero value of the type of `s`: field by field the
same description, every leaf the zero value of the type of the leaf of `s`, a
structure held by value zero in turn, and a nil pointer where `s` has a pointer
to a structure. -/
def isZeroInstanceOf : Struct → Struct → Bool
  | .done, .done => true
  | .leaf zi zv zrest, .leaf info v rest =>
    decide (zi = info) && zv.zeroValued && zv.sameType v && isZeroInstanceOf zrest rest
  | .leaf zi zv zrest, .nest info true _ rest =>
    decide (zi = info) && decide (zv = .nilPtr) && isZeroInstanceOf zrest rest
  | .nest zi false zinner zrest, .nest info false inner rest =>
    decide (zi = info) && isZeroInstanceOf zinner inner && isZeroInstanceOf zrest rest
  | _, _ => false

/-! ## Example configurations -/

/-- A process with an empty environment and no readable file.  The decoders
leave the target alone, no text is a float, and fractions of a duration unit
count for nothing. -/
def emptyWorld : World where
  lookupEnv := fun _ => none
  readFile := fun _ => .error (.external "open: no such file or directory")
  jsonUnmarshal := fun _ target => (target, none)
  yamlUnmarshal := fun _ target => (target, none)
  parseFloat := fun s => .error (.numError "ParseFloat" s false)
  toFloat32 := fun x => x
  durationFrac := fun _ _ _ => 0
  floatIsZero := fun bits => decide (bits = 0)

/-- The process of `emptyWorld` with the environment `env`. -/
def worldWithEnv (env : String → Option String) : World :=
  { emptyWorld with lookupEnv := env }

/-- The process of `emptyWorld` in which every path is readable, with empty
content. -/
def readableWorld : World :=
  { emptyWorld with readFile := fun _ => .ok [] }

/-- The environment in which only `APP_PORT` is set, to `val`. -/
def appPortEnv (val : String) : String → Option String :=
  fun key => if key = "APP_PORT" then some val else none

/-- Field `Port int` with tag `default:"8080" env:"APP_PORT"`. -/
def portInfo : FieldInfo := ⟨"Port", true, "8080", "APP_PORT"⟩

/-- Unexported field `port int` with tag `default:"8080" env:"APP_PORT"`. -/
def hiddenPortInfo : FieldInfo := ⟨"port", false, "8080", "APP_PORT"⟩

/-- Field `Workers int` with tag `env:"WORKERS"`. -/
def workersInfo : FieldInfo := ⟨"Workers", true, "", "WORKERS"⟩

/-- Structure with the single field `Port`, holding `port`. -/
def portConfig (port : Int) : Struct := .leaf portInfo (.int .int port) .done

/-- Structure with the single unexported field `port`, holding `port`. -/
def hiddenPortConfig (port : Int) : Struct := .leaf hiddenPortInfo (.int .int port) .done

/-- Structure with the fields `Workers` and `Port`. -/
def workersPortConfig (workers port : Int) : Struct :=
  .leaf workersInfo (.int .int workers) (.leaf portInfo (.int .int port) .done)

/-- The environment with `WORKERS=abc` and `APP_PORT=9090`. -/
def badWorkersEnv : String → Option String :=
  fun key => if key = "WORKERS" then some "abc" else if key = "APP_PORT" then some "9090" else none

/-- Field `Host string` with tag `env:"APP_HOST"` and no default. -/
def hostInfo : FieldInfo := ⟨"Host", true, "", "APP_HOST"⟩

/-- Structure with the single field `Host`, holding `host`. -/
def hostConfig (host : String) : Struct := .leaf hostInfo (.str host) .done

/-- Field `Timeout time.Duration` with the malformed tag `default:"soon"`. -/
def timeoutInfo : FieldInfo := ⟨"Timeout", true, "soon", ""⟩

/-- Structure with the fields `Port` and `Timeout`, holding `port` and
`timeout`. -/
def portTimeoutConfig (port timeout : Int) : Struct :=
  .leaf portInfo (.int .int port) (.leaf timeoutInfo (.int .duration timeout) .done)

/-- Field `DB *DBConfig`, a pointer to a structure, with tag
`default:"primary" env:"APP_DB"`. -/
def dbInfo : FieldInfo := ⟨"DB", true, "primary", "APP_DB"⟩

/-- Field `Cache *CacheConfig`, a pointer to a structure, without tags. -/
def cacheInfo : FieldInfo := ⟨"Cache", true, "", ""⟩

/-- Structure whose field `DB` is a nil pointer and whose field `Cache` points
to a structure with the single field `Port`, holding `port`. -/
def nestedConfig (port : Int) : Struct :=
  .leaf dbInfo .nilPtr (.nest cacheInfo true (portConfig port) .done)

/-- Field `Ports []int` with tag `env:"PORTS"`. -/
def portsInfo : FieldInfo := ⟨"Ports", true, "", "PORTS"⟩

/-- Structure with the single field `Ports`, a slice of `int` that is not nil. -/
def portsConfig : Struct := .leaf portsInfo (.otherSlice false) .done

/-- A process with the environment `env` in which every path is readable and
the JSON decoder writes 7000 to the field `Port` of a structure with that single
field. -/
def jsonPortWorld (env : String → Option String) : World :=
  { emptyWorld with
    lookupEnv := env
    readFile := fun _ => .ok []
    jsonUnmarshal := fun _ _ => (portConfig 7000, none) }

/-- Field `Level int8` with tag `env:"LEVEL"`. -/
def levelInfo : FieldInfo := ⟨"Level", true, "", "LEVEL"⟩

/-- Structure with the single field `Level`, holding `level`. -/
def levelConfig (level : Int) : Struct := .leaf levelInfo (.int .int8 level) .done

/-- The environment in which only `LEVEL` is set, to `val`. -/
def levelEnv (val : String) : String → Option String :=
  fun key => if key = "LEVEL" then some val else none

end Config

/-!
# Lifecycle coordinator (package `graceful`)

A shallow embedding of `graceful/graceful.go` and `graceful/runner.go`.  A call
of `Run` or `stopAll` is described by the sequence of calls it makes on the
registered components, in order, and by the error it returns.  A component is
identified by its position in `g.comps`.
-/

/-- Modelled from the spec: the interface `Component` is declared outside the
sources at hand; its methods `Name`, `Start` and `Stop` are those of the mock in
`graceful_test.go`.  A component is its name and what its `Start` and its `Stop`
return (`none` is `nil`). -/
structure Graceful.Component where
  name : String
  startResult : Option Config.GoError
  stopResult : Option Config.GoError
  deriving DecidableEq, Repr

/-- What `Run` does, step by step: a call of `Start` or of `Stop` on the
component at a position of `g.comps`, or the wait `<-g.ctx.Done()`. -/
inductive Graceful.Event where
  | start (index : Nat) (c : Graceful.Component)
  | waitDone
  | stop (index : Nat) (c : Graceful.Component)
  deriving DecidableEq, Repr

/-- The `Graceful` coordinator: the registered components.  The context, its
cancel function, the timeout and the lock play no part in the order of the
calls. -/
structure Graceful where
  comps : List Graceful.Component
  deriving DecidableEq, Repr

namespace Graceful

/-- `New`: no component is registered. -/
def New : Graceful := ⟨[]⟩

/-- `Register`: `g.comps = append(g.comps, cs...)`. -/
def Register (g : Graceful) (cs : List Component) : Graceful := ⟨g.comps ++ cs⟩

/-- The loop `for _, c := range g.comps` of `Run`, from position `index` on:
calls `Start` and returns at the first error. -/
def startFrom (index : Nat) : List Component → List Event × Option Config.GoError
  | [] => ([], none)
  | c :: rest =>
    match c.startResult with
    | some e => ([.start index c], some e)
    | none => (.start index c :: (startFrom (index + 1) rest).1, (startFrom (index + 1) rest).2)

/-- The loop `for i := len(g.comps) - 1; i >= 0; i--` of `stopAll`, with `n`
positions left to visit: calls `Stop` on `g.comps[n - 1]` and discards what it
returns.  The position is always within the slice. -/
def stopFrom (comps : List Component) : Nat → List Event
  | 0 => []
  | i + 1 =>
    match comps[i]? with
    | some c => .stop i c :: stopFrom comps i
    | none => stopFrom comps i

/-- `stopAll`: stops the components from the last to the first and returns
nil. -/
def stopAll (g : Graceful) : List Event × Option Config.GoError :=
  (stopFrom g.comps g.comps.length, none)

/-- `Run`: starts the components in order and returns the first error of a
`Start`; otherwise waits for the context to be done and returns what `stopAll`
returns. -/
def Run (g : Graceful) : List Event × Option Config.GoError :=
  match (startFrom 0 g.comps).2 with
  | some e => ((startFrom 0 g.comps).1, some e)
  | none => ((startFrom 0 g.comps).1 ++ [Event.waitDone] ++ (stopAll g).1, (stopAll g).2)

/-- A component whose `Start` and `Stop` return nil. -/
def okComponent (name : String) : Component := ⟨name, none, none⟩

/-- A component whose `Stop` returns an error. -/
def failStopComponent (name : String) : Component :=
  ⟨name, none, some (.external "stop failed")⟩

/-- A component whose `Start` returns the error `start failed`. -/
def failStartComponent (name : String) : Component :=
  ⟨name, some (.external "start failed"), none⟩

end Graceful

namespace Config

/-! ## The walks, field by field -/

theorem setDefaults_eq_walk (w : World) (s : Struct) :
    setDefaults w s = walk w (defaultRule w) s := by
  induction s with
  | done => rfl
  | leaf info v rest ih =>
    unfold setDefaults walk
    rw [ih]
    by_cases hc : info.canSet = true
    · by_cases hr : info.defaultTag ≠ "" ∧ isZero w v = true
      · simp only [hc, hr, defaultRule, Bool.not_true, Bool.false_eq_true, if_false, if_true,
          ne_eq, not_false_eq_true, and_self]
      · simp [hc, hr, defaultRule]
    · simp [hc]
  | nest info vp inner rest ihi ihr =>
    unfold setDefaults walk
    rw [ihi, ihr]
    by_cases hc : info.canSet = true
    · simp only [hc, Bool.not_true, Bool.false_eq_true, if_false, if_true]
    · simp [hc]

theorem setEnv_eq_walk (w : World) (s : Struct) :
    setEnv w s = walk w (envRule w) s := by
  induction s with
  | done => rfl
  | leaf info v rest ih =>
    unfold setEnv walk
    rw [ih]
    by_cases hc : info.canSet = true
    · by_cases hr : info.envTag ≠ "" ∧ w.getenv info.envTag ≠ ""
      · simp only [hc, hr, envRule, Bool.not_true, Bool.false_eq_true, if_false, if_true,
          ne_eq, not_false_eq_true, and_self]
      · simp [hc, hr, envRule]
    · simp [hc]
  | nest info vp inner rest ihi ihr =>
    unfold setEnv walk
    rw [ihi, ihr]
    by_cases hc : info.canSet = true
    · simp only [hc, Bool.not_true, Bool.false_eq_true, if_false, if_true]
    · simp [hc]

theorem walk_leafAt_frame (w : World) (rule : FieldInfo → Leaf → Option (String × String))
    (s : Struct) :
    ∀ (p : List Nat) (info : FieldInfo) (v : Leaf), s.leafAt p = some (info, v) →
      (s.settableAt p = false ∨ rule info v = none) →
      (walk w rule s).1.leafAt p = some (info, v) := by
  induction s with
  | done => intro p info v h; simp [Struct.leafAt] at h
  | leaf i0 v0 rest ih =>
    intro p info v h hc
    match p, h, hc with
    | [0], h, hc =>
      simp only [Struct.leafAt, Option.some.injEq, Prod.mk.injEq] at h
      obtain ⟨rfl, rfl⟩ := h
      simp only [Struct.settableAt] at hc
      have hr : (if i0.canSet = true then rule i0 v0 else none) = none := by
        rcases hc with hc | hc <;> simp [hc]
      simp only [walk, hr, Struct.leafAt]
    | (i + 1) :: q, h, hc =>
      simp only [Struct.leafAt, Struct.settableAt] at h hc
      simp only [walk]
      cases hr : (if i0.canSet = true then rule i0 v0 else none) with
      | none => simpa [Struct.leafAt] using ih _ _ _ h hc
      | some tc =>
        cases he : (setValue w v0 tc.1).2 with
        | none => simpa [Struct.leafAt, he] using ih _ _ _ h hc
        | some e => simpa [Struct.leafAt, he] using h
  | nest i0 vp inner rest ihi ihr =>
    intro p info v h hc
    match p, h, hc with
    | 0 :: q, h, hc =>
      simp only [Struct.leafAt, Struct.settableAt] at h hc
      simp only [walk]
      by_cases hs : i0.canSet = true
      · have hc1 : inner.settableAt q = false ∨ rule info v = none := by
          rcases hc with hc | hc
          · simp [hs] at hc
            exact Or.inl hc
          · exact Or.inr hc
        simp only [hs, if_true]
        cases he : (walk w rule inner).2 <;> simpa [Struct.leafAt] using ihi _ _ _ h hc1
      · simpa [hs, Struct.leafAt] using h
    | (i + 1) :: q, h, hc =>
      simp only [Struct.leafAt, Struct.settableAt] at h hc
      simp only [walk]
      by_cases hs : i0.canSet = true
      · simp only [hs, if_true]
        cases he : (walk w rule inner).2 with
        | none => simpa [Struct.leafAt] using ihr _ _ _ h hc
        | some e => simpa [Struct.leafAt] using h
      · simpa [hs, Struct.leafAt] using ihr _ _ _ h hc

theorem walk_leafAt_set (w : World) (rule : FieldInfo → Leaf → Option (String × String))
    (s : Struct) :
    ∀ (p : List Nat) (info : FieldInfo) (v : Leaf) (token context : String),
      (walk w rule s).2 = none → s.leafAt p = some (info, v) → s.settableAt p = true →
      rule info v = some (token, context) →
      (walk w rule s).1.leafAt p = some (info, (setValue w v token).1) ∧
        (setValue w v token).2 = none := by
  induction s with
  | done => intro p info v _ _ _ h; simp [Struct.leafAt] at h
  | leaf i0 v0 rest ih =>
    intro p info v token context hok h hs hr
    match p, h, hs with
    | [0], h, hs =>
      simp only [Struct.leafAt, Option.some.injEq, Prod.mk.injEq] at h
      obtain ⟨rfl, rfl⟩ := h
      simp only [Struct.settableAt] at hs
      simp only [walk, hs, if_true, hr] at hok ⊢
      cases he : (setValue w v0 token).2 with
      | none => simp [he, Struct.leafAt]
      | some e => simp [he] at hok
    | (i + 1) :: q, h, hs =>
      simp only [Struct.leafAt, Struct.settableAt] at h hs
      simp only [walk] at hok ⊢
      cases hr0 : (if i0.canSet = true then rule i0 v0 else none) with
      | none =>
        simp only [hr0] at hok
        simpa [Struct.leafAt] using ih _ _ _ _ _ hok h hs hr
      | some tc =>
        simp only [hr0] at hok
        cases he : (setValue w v0 tc.1).2 with
        | none =>
          simp only [he] at hok
          simpa [Struct.leafAt, he] using ih _ _ _ _ _ hok h hs hr
        | some e => simp [he] at hok
  | nest i0 vp inner rest ihi ihr =>
    intro p info v token context hok h hs hr
    match p, h, hs with
    | 0 :: q, h, hs =>
      simp only [Struct.leafAt, Struct.settableAt, Bool.and_eq_true] at h hs
      simp only [walk, hs.1, if_true] at hok ⊢
      cases he : (walk w rule inner).2 with
      | none => simpa [Struct.leafAt] using ihi _ _ _ _ _ he h hs.2 hr
      | some e => simp [he] at hok
    | (i + 1) :: q, h, hs =>
      simp only [Struct.leafAt, Struct.settableAt] at h hs
      simp only [walk] at hok ⊢
      by_cases hc : i0.canSet = true
      · simp only [hc, if_true] at hok ⊢
        cases he : (walk w rule inner).2 with
        | none =>
          simp only [he] at hok
          simpa [Struct.leafAt] using ihr _ _ _ _ _ hok h hs hr
        | some e => simp [he] at hok
      · simp only [hc, if_false] at hok ⊢
        simpa [Struct.leafAt] using ihr _ _ _ _ _ hok h hs hr

theorem walk_error_origin (w : World) (rule : FieldInfo → Leaf → Option (String × String))
    (s : Struct) :
    ∀ e : GoError, (walk w rule s).2 = some e →
      ∃ (p : List Nat) (info : FieldInfo) (v : Leaf) (token context : String) (cause : GoError),
        s.leafAt p = some (info, v) ∧ s.settableAt p = true ∧
        rule info v = some (token, context) ∧ (setValue w v token).2 = some cause ∧
        e = .wrap context cause := by
  induction s with
  | done => intro e h; simp [walk] at h
  | leaf i0 v0 rest ih =>
    intro e h
    simp only [walk] at h
    cases hr0 : (if i0.canSet = true then rule i0 v0 else none) with
    | none =>
      simp only [hr0] at h
      obtain ⟨p, info, v, token, context, cause, h1, h2, h3⟩ := ih e h
      match p, h1, h2 with
      | [], h1, _ => cases rest <;> simp [Struct.leafAt] at h1
      | i :: q, h1, h2 =>
        exact ⟨(i + 1) :: q, info, v, token, context, cause,
          by simpa [Struct.leafAt] using h1, by simpa [Struct.settableAt] using h2, h3⟩
    | some tc =>
      simp only [hr0] at h
      cases he : (setValue w v0 tc.1).2 with
      | none =>
        simp only [he] at h
        obtain ⟨p, info, v, token, context, cause, h1, h2, h3⟩ := ih e h
        match p, h1, h2 with
        | [], h1, _ => cases rest <;> simp [Struct.leafAt] at h1
        | i :: q, h1, h2 =>
          exact ⟨(i + 1) :: q, info, v, token, context, cause,
            by simpa [Struct.leafAt] using h1, by simpa [Struct.settableAt] using h2, h3⟩
      | some e0 =>
        simp only [he, Option.some.injEq] at h
        by_cases hc : i0.canSet = true
        · simp only [hc, if_true] at hr0
          exact ⟨[0], i0, v0, tc.1, tc.2, e0, by simp [Struct.leafAt],
            by simp [Struct.settableAt, hc], hr0, he, h.symm⟩
        · simp [hc] at hr0
  | nest i0 vp inner rest ihi ihr =>
    intro e h
    simp only [walk] at h
    by_cases hc : i0.canSet = true
    · simp only [hc, if_true] at h
      cases he : (walk w rule inner).2 with
      | none =>
        simp only [he] at h
        obtain ⟨p, info, v, token, context, cause, h1, h2, h3⟩ := ihr e h
        match p, h1, h2 with
        | [], h1, _ => cases rest <;> simp [Struct.leafAt] at h1
        | i :: q, h1, h2 =>
          exact ⟨(i + 1) :: q, info, v, token, context, cause,
            by simpa [Struct.leafAt] using h1, by simpa [Struct.settableAt] using h2, h3⟩
      | some e0 =>
        simp only [he, Option.some.injEq] at h
        subst h
        obtain ⟨p, info, v, token, context, cause, h1, h2, h3⟩ := ihi e0 he
        exact ⟨0 :: p, info, v, token, context, cause,
          by simpa [Struct.leafAt] using h1, by simp [Struct.settableAt, hc, h2], h3⟩
    · simp only [hc, if_false] at h
      obtain ⟨p, info, v, token, context, cause, h1, h2, h3⟩ := ihr e h
      match p, h1, h2 with
      | [], h1, _ => cases rest <;> simp [Struct.leafAt] at h1
      | i :: q, h1, h2 =>
        exact ⟨(i + 1) :: q, info, v, token, context, cause,
          by simpa [Struct.leafAt] using h1, by simpa [Struct.settableAt] using h2, h3⟩

theorem walk_fails_of_failing_leaf (w : World)
    (rule : FieldInfo → Leaf → Option (String × String)) (s : Struct)
    (p : List Nat) (info : FieldInfo) (v : Leaf) (token context : String)
    (h : s.leafAt p = some (info, v)) (hs : s.settableAt p = true)
    (hr : rule info v = some (token, context)) (hf : (setValue w v token).2 ≠ none) :
    (walk w rule s).2 ≠ none := by
  intro hok
  exact hf (walk_leafAt_set w rule s p info v token context hok h hs hr).2

/-! ## Facts about `setValue` -/

theorem setValue_error_unchanged (w : World) (v : Leaf) (s : String)
    (h : (setValue w v s).2 ≠ none) : (setValue w v s).1 = v := by
  cases v with
  | str x => simp [setValue] at h
  | bool b =>
    simp only [setValue] at h ⊢
    cases hp : parseBool s with
    | ok b1 => simp [hp] at h
    | error e => rfl
  | int t i =>
    simp only [setValue] at h ⊢
    cases hp : parseInt s with
    | ok i1 => simp [hp] at h
    | error e =>
      simp only [hp] at h ⊢
      by_cases ht : t = .duration
      · simp only [ht, if_true] at h ⊢
        cases hd : parseDuration w.durationFrac s with
        | ok d => simp [hd] at h
        | error e1 => rfl
      · simp [ht]
  | uint t n =>
    simp only [setValue] at h ⊢
    cases hp : parseUint s with
    | ok n1 => simp [hp] at h
    | error e => rfl
  | float t b =>
    simp only [setValue] at h ⊢
    cases hp : w.parseFloat s with
    | ok n1 => simp [hp] at h
    | error e => rfl
  | strSlice xs => simp [setValue] at h
  | otherSlice b => rfl
  | nilPtr => rfl
  | other z => rfl

theorem setValue_idem (w : World) (v : Leaf) (s : String) :
    setValue w (setValue w v s).1 s = setValue w v s := by
  cases v with
  | str x => rfl
  | bool b => simp only [setValue]; cases hp : parseBool s <;> simp [setValue, hp]
  | int t i =>
    simp only [setValue]
    cases hp : parseInt s with
    | ok i1 => simp [setValue, hp]
    | error e =>
      by_cases ht : t = .duration
      · subst ht
        cases hd : parseDuration w.durationFrac s <;> simp [setValue, hp, hd]
      · simp [setValue, hp, ht]
  | uint t n =>
    simp only [setValue]
    cases hp : parseUint s <;> simp [setValue, hp]
  | float t b =>
    simp only [setValue]
    cases hp : w.parseFloat s <;> simp [setValue, hp]
  | strSlice xs => rfl
  | otherSlice b => rfl
  | nilPtr => rfl
  | other z => rfl

theorem walk_idem (w : World) (rule : FieldInfo → Leaf → Option (String × String))
    (hrule : ∀ info v token context, rule info v = some (token, context) →
      rule info (setValue w v token).1 = none ∨
        rule info (setValue w v token).1 = some (token, context))
    (s : Struct) : walk w rule (walk w rule s).1 = walk w rule s := by
  induction s with
  | done => rfl
  | leaf i0 v0 rest ih =>
    cases hr0 : (if i0.canSet = true then rule i0 v0 else none) with
    | none =>
      have e1 : walk w rule (.leaf i0 v0 rest)
          = (.leaf i0 v0 (walk w rule rest).1, (walk w rule rest).2) := by
        simp only [walk, hr0]
      rw [e1]
      simp only [walk, hr0, ih]
    | some tc =>
      obtain ⟨token, context⟩ := tc
      cases he : (setValue w v0 token).2 with
      | some e =>
        have hv : (setValue w v0 token).1 = v0 :=
          setValue_error_unchanged w v0 token (by simp [he])
        have e1 : walk w rule (.leaf i0 v0 rest)
            = (.leaf i0 v0 rest, some (.wrap context e)) := by
          simp only [walk, hr0, he, hv]
        rw [e1]
        exact e1
      | none =>
        have e1 : walk w rule (.leaf i0 v0 rest)
            = (.leaf i0 (setValue w v0 token).1 (walk w rule rest).1, (walk w rule rest).2) := by
          simp only [walk, hr0, he]
        rw [e1]
        by_cases hc : i0.canSet = true
        · simp only [hc, if_true] at hr0
          rcases hrule i0 v0 token context hr0 with h1 | h1
          · simp only [walk, hc, if_true, h1, ih]
          · simp only [walk, hc, if_true, h1, setValue_idem, he, ih]
        · simp [hc] at hr0
  | nest i0 vp inner rest ihi ihr =>
    by_cases hc : i0.canSet = true
    · cases he : (walk w rule inner).2 with
      | some e =>
        have e1 : walk w rule (.nest i0 vp inner rest)
            = (.nest i0 vp (walk w rule inner).1 rest, some e) := by
          simp only [walk, hc, if_true, he]
        rw [e1]
        simp only [walk, hc, if_true, ihi, he]
      | none =>
        have e1 : walk w rule (.nest i0 vp inner rest)
            = (.nest i0 vp (walk w rule inner).1 (walk w rule rest).1, (walk w rule rest).2) := by
          simp only [walk, hc, if_true, he]
        rw [e1]
        simp only [walk, hc, if_true, ihi, he, ihr]
    · have e1 : walk w rule (.nest i0 vp inner rest)
          = (.nest i0 vp inner (walk w rule rest).1, (walk w rule rest).2) := by
        simp only [walk, hc, if_false, Bool.false_eq_true]
      rw [e1]
      simp only [walk, hc, if_false, Bool.false_eq_true, ihr]

theorem defaultRule_after_set (w : World) (info : FieldInfo) (v : Leaf) (token context : String)
    (h : defaultRule w info v = some (token, context)) :
    defaultRule w info (setValue w v token).1 = none ∨
      defaultRule w info (setValue w v token).1 = some (token, context) := by
  unfold defaultRule at h ⊢
  by_cases hc : info.defaultTag ≠ "" ∧ isZero w v = true
  · simp only [hc, ne_eq, not_false_eq_true, and_self, if_true, Option.some.injEq,
      Prod.mk.injEq] at h
    obtain ⟨rfl, rfl⟩ := h
    by_cases hz : isZero w (setValue w v info.defaultTag).1 = true
    · right; simp [hc.1, hz]
    · left; simp [hz]
  · simp [hc] at h

/-! ## Layer precedence -/

theorem setValue_prior_irrelevant (w : World) (v v0 : Leaf) (s : String)
    (hk : v.assignsFromText = true) (ht : v0.sameType v = true)
    (hok : (setValue w v s).2 = none) :
    setValue w v0 s = setValue w v s := by
  cases v <;> cases v0 <;> simp [Leaf.sameType, Leaf.assignsFromText] at ht hk <;>
    simp only [setValue] at hok ⊢
  · rename_i b b0
    cases hp : parseBool s with
    | ok b1 => rfl
    | error e => simp [hp] at hok
  · rename_i t i t0 i0
    subst ht
    cases hp : parseInt s with
    | ok i1 => rfl
    | error e =>
      simp only [hp] at hok ⊢
      by_cases hd : t0 = .duration
      · simp only [hd, if_true] at hok ⊢
        cases hq : parseDuration w.durationFrac s with
        | ok d => rfl
        | error e1 => simp [hq] at hok
      · simp [hd] at hok
  · rename_i t n t0 n0
    subst ht
    cases hp : parseUint s with
    | ok n1 => rfl
    | error e => simp [hp] at hok
  · rename_i t b t0 b0
    subst ht
    cases hp : w.parseFloat s with
    | ok f => rfl
    | error e => simp [hp] at hok

theorem setValue_not_assigned (w : World) (v : Leaf) (s : String)
    (hk : v.assignsFromText = false) : setValue w v s = (v, none) := by
  cases v <;> simp [Leaf.assignsFromText] at hk <;> rfl

theorem load_ok_stages (w : World) (l : Loader) (hok : (l.Load w).2 = none) :
    (processDefaults w l.cfg).2 = none ∧
    (l.fileStage w (processDefaults w l.cfg).1).2 = none ∧
    (processEnv w (l.fileStage w (processDefaults w l.cfg).1).1).2 = none ∧
    (l.Load w).1 = (processEnv w (l.fileStage w (processDefaults w l.cfg).1).1).1 := by
  unfold Loader.Load at hok ⊢
  cases h1 : (processDefaults w l.cfg).2 with
  | some e => simp [h1] at hok
  | none =>
    simp only [h1] at hok ⊢
    cases h2 : (l.fileStage w (processDefaults w l.cfg).1).2 with
    | some e => simp [h2] at hok
    | none =>
      simp only [h2] at hok ⊢
      cases h3 : (processEnv w (l.fileStage w (processDefaults w l.cfg).1).1).2 with
      | some e => simp [h3] at hok
      | none => simp

/-- C1 (amended): whenever `Load` returns nil, its result is the environment
layer applied to the result of the file layer applied to the result of the
defaults layer, and for every leaf field: (1) if the field is assignable and its
`env` variable has a non-empty value, then a field of a kind `setValue` assigns
ends up equal to the coercion of that value, the same whatever value of its
type the defaults and the file layers left in it, and a field of another kind
keeps what the file layer left; (2) if the variable is unset or empty, the
field keeps the value it has after the file layer, so a value written by the
file stands in place of the default; (3) with no file configured and the
variable unset or empty, an assignable field that held its zero value before
`Load` and has a default rule ends up equal to the coerced default, and a field
that held a non-zero value before `Load` keeps it. -/
theorem load_layer_precedence (w : World) (l : Loader) (hok : (l.Load w).2 = none) :
    (l.Load w).1 = (processEnv w (l.fileStage w (processDefaults w l.cfg).1).1).1 ∧
    (∀ (p : List Nat) (info : FieldInfo) (v : Leaf),
      (l.fileStage w (processDefaults w l.cfg).1).1.leafAt p = some (info, v) →
      (l.fileStage w (processDefaults w l.cfg).1).1.settableAt p = true →
      info.envTag ≠ "" → w.getenv info.envTag ≠ "" →
      (l.Load w).1.leafAt p = some (info, (setValue w v (w.getenv info.envTag)).1) ∧
      (setValue w v (w.getenv info.envTag)).2 = none ∧
      (v.assignsFromText = true → ∀ v0 : Leaf, v0.sameType v = true →
        setValue w v0 (w.getenv info.envTag) = setValue w v (w.getenv info.envTag)) ∧
      (v.assignsFromText = false → (l.Load w).1.leafAt p = some (info, v))) ∧
    (∀ (p : List Nat) (info : FieldInfo) (v : Leaf),
      (l.fileStage w (processDefaults w l.cfg).1).1.leafAt p = some (info, v) →
      w.getenv info.envTag = "" →
      (l.Load w).1.leafAt p = some (info, v)) ∧
    (l.configFile = "" →
      ∀ (p : List Nat) (info : FieldInfo) (v : Leaf),
        l.cfg.leafAt p = some (info, v) → l.cfg.settableAt p = true →
        info.defaultTag ≠ "" → isZero w v = true → w.getenv info.envTag = "" →
        (l.Load w).1.leafAt p = some (info, (setValue w v info.defaultTag).1)) ∧
    (l.configFile = "" →
      ∀ (p : List Nat) (info : FieldInfo) (v : Leaf),
        l.cfg.leafAt p = some (info, v) → isZero w v = false → w.getenv info.envTag = "" →
        (l.Load w).1.leafAt p = some (info, v)) := by
  obtain ⟨h1, h2, h3, h4⟩ := load_ok_stages w l hok
  have envFrame : ∀ (t : Struct) (p : List Nat) (info : FieldInfo) (v : Leaf),
      t.leafAt p = some (info, v) → w.getenv info.envTag = "" →
      (processEnv w t).1.leafAt p = some (info, v) := by
    intro t p info v hp he
    unfold processEnv
    rw [setEnv_eq_walk]
    exact walk_leafAt_frame w (envRule w) t p info v hp (Or.inr (by simp [envRule, he]))
  refine ⟨h4, ?_, ?_, ?_, ?_⟩
  · intro p info v hp hs ht he
    rw [h4]
    unfold processEnv at h3 ⊢
    rw [setEnv_eq_walk] at h3 ⊢
    have hr : envRule w info v = some (w.getenv info.envTag,
        "failed to set env " ++ info.envTag ++ " for field " ++ info.name) := by
      simp [envRule, ht, he]
    have := walk_leafAt_set w (envRule w) _ p info v _ _ h3 hp hs hr
    refine ⟨this.1, this.2,
      fun hk v0 hz => setValue_prior_irrelevant w v v0 _ hk hz this.2, ?_⟩
    intro hk
    have hsv := setValue_not_assigned w v (w.getenv info.envTag) hk
    rw [hsv] at this
    exact this.1
  · intro p info v hp he
    rw [h4]
    exact envFrame _ p info v hp he
  · intro hfile p info v hp hs hd hz he
    rw [h4]
    have hfs : l.fileStage w (processDefaults w l.cfg).1 = ((processDefaults w l.cfg).1, none) := by
      simp [Loader.fileStage, hfile]
    rw [hfs]
    apply envFrame
    · unfold processDefaults at h1 ⊢
      rw [setDefaults_eq_walk] at h1 ⊢
      have hr : defaultRule w info v = some (info.defaultTag,
          "failed to set default for field " ++ info.name) := by
        simp [defaultRule, hd, hz]
      exact (walk_leafAt_set w (defaultRule w) _ p info v _ _ h1 hp hs hr).1
    · exact he
  · intro hfile p info v hp hz he
    rw [h4]
    have hfs : l.fileStage w (processDefaults w l.cfg).1 = ((processDefaults w l.cfg).1, none) := by
      simp [Loader.fileStage, hfile]
    rw [hfs]
    apply envFrame
    · unfold processDefaults
      rw [setDefaults_eq_walk]
      exact walk_leafAt_frame w (defaultRule w) _ p info v hp
        (Or.inr (by simp [defaultRule, hz]))
    · exact he

/-- C1 witness: `Port int` with `default:"8080" env:"APP_PORT"`.  Zero before
`Load`, no file: 8080 with an empty environment, 9090 with `APP_PORT=9090`.
Holding 1234 before `Load`, no file, empty environment: 1234.  With a file that
supplies 7000: 7000 with an empty environment, 9090 with `APP_PORT=9090`. -/
theorem load_layer_precedence_witness :
    (Loader.Load emptyWorld ⟨"", portConfig 0, false⟩).2 = none ∧
    (Loader.Load emptyWorld ⟨"", portConfig 0, false⟩).1.leafAt [0]
      = some (portInfo, .int .int 8080) ∧
    (Loader.Load (worldWithEnv (appPortEnv "9090")) ⟨"", portConfig 0, false⟩).2 = none ∧
    (Loader.Load (worldWithEnv (appPortEnv "9090")) ⟨"", portConfig 0, false⟩).1.leafAt [0]
      = some (portInfo, .int .int 9090) ∧
    (Loader.Load emptyWorld ⟨"", portConfig 1234, false⟩).2 = none ∧
    (Loader.Load emptyWorld ⟨"", portConfig 1234, false⟩).1.leafAt [0]
      = some (portInfo, .int .int 1234) ∧
    (Loader.Load (jsonPortWorld (fun _ => none)) ⟨"config.json", portConfig 0, false⟩).2
      = none ∧
    (Loader.Load (jsonPortWorld (fun _ => none)) ⟨"config.json", portConfig 0, false⟩).1.leafAt
      [0] = some (portInfo, .int .int 7000) ∧
    (Loader.Load (jsonPortWorld (appPortEnv "9090")) ⟨"config.json", portConfig 0, false⟩).2
      = none ∧
    (Loader.Load (jsonPortWorld (appPortEnv "9090"))
      ⟨"config.json", portConfig 0, false⟩).1.leafAt [0] = some (portInfo, .int .int 9090) :=
  ⟨by decide,
    (load_layer_precedence emptyWorld ⟨"", portConfig 0, false⟩ (by decide)).2.2.2.1 rfl [0]
      portInfo (.int .int 0) (by decide) (by decide) (by decide) (by decide) (by decide),
    by decide,
    ((load_layer_precedence (worldWithEnv (appPortEnv "9090")) ⟨"", portConfig 0, false⟩
      (by decide)).2.1 [0] portInfo (.int .int 8080) (by decide) (by decide) (by decide)
      (by decide)).1,
    by decide,
    (load_layer_precedence emptyWorld ⟨"", portConfig 1234, false⟩ (by decide)).2.2.2.2 rfl [0]
      portInfo (.int .int 1234) (by decide) (by decide) (by decide),
    by decide,
    (load_layer_precedence (jsonPortWorld (fun _ => none)) ⟨"config.json", portConfig 0, false⟩
      (by decide)).2.2.1 [0] portInfo (.int .int 7000) (by decide) (by decide),
    by decide,
    ((load_layer_precedence (jsonPortWorld (appPortEnv "9090"))
      ⟨"config.json", portConfig 0, false⟩ (by decide)).2.1 [0] portInfo (.int .int 7000)
      (by decide) (by decide) (by decide) (by decide)).1⟩

/-- C1 counterexample: (a) with no file configured, a `Port` field that holds
1234 before `Load` keeps 1234 although `APP_PORT` is unset and the coerced
default is 8080; (b) an unexported field with the same rules stays 0 although
`APP_PORT=9090`; (c) when the earlier field `Workers` has the malformed value
`abc`, `Load` fails and `Port` holds the default 8080, not 9090; (d) a field
`Ports []int` keeps what it held although `PORTS=1,2` and `Load` returns nil. -/
theorem load_precedence_counterexample :
    (Loader.Load emptyWorld ⟨"", portConfig 1234, false⟩ = (portConfig 1234, none) ∧
      emptyWorld.lookupEnv portInfo.envTag = none ∧
      (setValue emptyWorld (.int .int 1234) portInfo.defaultTag).1 = .int .int 8080) ∧
    (Loader.Load (worldWithEnv (appPortEnv "9090")) ⟨"", hiddenPortConfig 0, false⟩
        = (hiddenPortConfig 0, none) ∧
      (setValue (worldWithEnv (appPortEnv "9090")) (.int .int 0) "9090").1 = .int .int 9090) ∧
    ((Loader.Load (worldWithEnv badWorkersEnv) ⟨"", workersPortConfig 0 0, false⟩).1
        = workersPortConfig 0 8080 ∧
      (Loader.Load (worldWithEnv badWorkersEnv) ⟨"", workersPortConfig 0 0, false⟩).2 ≠ none) ∧
    ((worldWithEnv (fun _ => some "1,2")).getenv portsInfo.envTag = "1,2" ∧
      Loader.Load (worldWithEnv (fun _ => some "1,2")) ⟨"", portsConfig, false⟩
        = (portsConfig, none)) := by
  decide

/-! ## Defaults -/

theorem processEnv_unset (w : World) (s : Struct) (henv : ∀ key, w.getenv key = "") :
    (processEnv w s).2 = none ∧
    ∀ (p : List Nat) (info : FieldInfo) (v : Leaf), s.leafAt p = some (info, v) →
      (processEnv w s).1.leafAt p = some (info, v) := by
  unfold processEnv
  rw [setEnv_eq_walk]
  have hrule : ∀ info v, envRule w info v = none := by
    intro info v
    simp [envRule, henv]
  constructor
  · cases he : (walk w (envRule w) s).2 with
    | none => rfl
    | some e =>
      obtain ⟨p, info, v, token, context, cause, _, _, hr, _⟩ :=
        walk_error_origin w (envRule w) s e he
      simp [hrule] at hr
  · intro p info v hp
    exact walk_leafAt_frame w (envRule w) s p info v hp (Or.inr (hrule info v))

/-- C2: when `processDefaults` returns nil (every default coercion it attempts
succeeds), each assignable leaf field with a default rule that held its zero
value holds the coercion of the default literal afterwards, and each leaf field
that is non-zero or has no default rule (or is not assignable) is unchanged;
consequently `Load` with no file configured and no environment variable set
returns nil and every assignable, initially-zero leaf with a default rule equals
its coerced default. -/
theorem processDefaults_binds_zero_leaves (w : World) (s : Struct)
    (hok : (processDefaults w s).2 = none) :
    (∀ (p : List Nat) (info : FieldInfo) (v : Leaf),
      s.leafAt p = some (info, v) → s.settableAt p = true →
      info.defaultTag ≠ "" → isZero w v = true →
      (processDefaults w s).1.leafAt p = some (info, (setValue w v info.defaultTag).1) ∧
      (setValue w v info.defaultTag).2 = none) ∧
    (∀ (p : List Nat) (info : FieldInfo) (v : Leaf),
      s.leafAt p = some (info, v) →
      (isZero w v = false ∨ info.defaultTag = "" ∨ s.settableAt p = false) →
      (processDefaults w s).1.leafAt p = some (info, v)) ∧
    (∀ l : Loader, l.cfg = s → l.configFile = "" → (∀ key, w.lookupEnv key = none) →
      (l.Load w).2 = none ∧
      ∀ (p : List Nat) (info : FieldInfo) (v : Leaf),
        s.leafAt p = some (info, v) → s.settableAt p = true →
        info.defaultTag ≠ "" → isZero w v = true →
        (l.Load w).1.leafAt p = some (info, (setValue w v info.defaultTag).1)) := by
  have hset : ∀ (p : List Nat) (info : FieldInfo) (v : Leaf),
      s.leafAt p = some (info, v) → s.settableAt p = true →
      info.defaultTag ≠ "" → isZero w v = true →
      (processDefaults w s).1.leafAt p = some (info, (setValue w v info.defaultTag).1) ∧
      (setValue w v info.defaultTag).2 = none := by
    intro p info v hp hs hd hz
    unfold processDefaults at hok ⊢
    rw [setDefaults_eq_walk] at hok ⊢
    have hr : defaultRule w info v = some (info.defaultTag,
        "failed to set default for field " ++ info.name) := by
      simp [defaultRule, hd, hz]
    exact walk_leafAt_set w (defaultRule w) s p info v _ _ hok hp hs hr
  refine ⟨hset, ?_, ?_⟩
  · intro p info v hp hc
    unfold processDefaults
    rw [setDefaults_eq_walk]
    apply walk_leafAt_frame w (defaultRule w) s p info v hp
    rcases hc with hc | hc | hc
    · right; simp [defaultRule, hc]
    · right; simp [defaultRule, hc]
    · left; exact hc
  · intro l hl hfile henv
    subst hl
    have hget : ∀ key, w.getenv key = "" := by
      intro key
      simp [World.getenv, henv key]
    have hfs : l.fileStage w (processDefaults w l.cfg).1 = ((processDefaults w l.cfg).1, none) := by
      simp [Loader.fileStage, hfile]
    have hload : l.Load w = ((processEnv w (processDefaults w l.cfg).1).1, none) := by
      unfold Loader.Load
      simp only [hok, hfs, (processEnv_unset w _ hget).1]
    refine ⟨by rw [hload], ?_⟩
    intro p info v hp hs hd hz
    rw [hload]
    exact (processEnv_unset w _ hget).2 p info _ (hset p info v hp hs hd hz).1

/-- C2 witness: on the structure with the zero field `Port`, default `"8080"`,
`processDefaults` returns nil and binds 8080. -/
theorem processDefaults_binds_zero_leaves_witness :
    (processDefaults emptyWorld (portConfig 0)).2 = none ∧
    (processDefaults emptyWorld (portConfig 0)).1.leafAt [0] = some (portInfo, .int .int 8080) :=
  ⟨by decide,
    ((processDefaults_binds_zero_leaves emptyWorld (portConfig 0) (by decide)).1 [0] portInfo
      (.int .int 0) (by decide) (by decide) (by decide) (by decide)).1⟩

/-! ## Signed integers and durations -/

theorem parseDuration_five_seconds (frac : Nat → Nat → Nat → Nat) :
    parseDuration frac "5s" = .ok 5000000000 := by
  rfl

/-- C3: on a signed-integer field `setValue` first tries `strconv.ParseInt` in
base 10 and stores its result; only when that fails and the type of the field is
`time.Duration` does it try `time.ParseDuration`; when the integer parse fails
on another type, or both parses fail, it returns the error and the field is
unchanged.  A duration field given `"5s"` holds 5,000,000,000 ns, an `int` field
given `"5"` holds 5, and an `int` field given `"5s"` is an error. -/
theorem setValue_int_then_duration (w : World) (t : IntType) (i : Int) (s : String) :
    (∀ n : Int, parseInt s = .ok n →
      setValue w (.int t i) s = (.int t (wrapInt t.bits n), none)) ∧
    (∀ e : GoError, parseInt s = .error e → t ≠ .duration →
      setValue w (.int t i) s = (.int t i, some e)) ∧
    (∀ (e : GoError) (d : Int), parseInt s = .error e → t = .duration →
      parseDuration w.durationFrac s = .ok d →
      setValue w (.int t i) s = (.int t (wrapInt 64 d), none)) ∧
    (∀ e e1 : GoError, parseInt s = .error e → t = .duration →
      parseDuration w.durationFrac s = .error e1 →
      setValue w (.int t i) s = (.int t i, some e1)) ∧
    setValue w (.int .duration i) "5s" = (.int .duration 5000000000, none) ∧
    setValue w (.int .int i) "5" = (.int .int 5, none) ∧
    setValue w (.int .int i) "5s" = (.int .int i, some (.numError "ParseInt" "5s" false)) := by
  have h5s : parseInt "5s" = .error (.numError "ParseInt" "5s" false) := by decide
  have h5 : parseInt "5" = .ok 5 := by decide
  refine ⟨?_, ?_, ?_, ?_, ?_, ?_, ?_⟩
  · intro n hn
    simp only [setValue, hn]
  · intro e he ht
    simp only [setValue, he, ht, if_false]
  · intro e d he ht hd
    subst ht
    simp only [setValue, he, hd, if_true, IntType.bits]
  · intro e e1 he ht hd
    subst ht
    simp only [setValue, he, hd, if_true]
  · have hw : wrapInt 64 5000000000 = 5000000000 := by decide
    simp only [setValue, h5s, parseDuration_five_seconds, if_true, IntType.bits, hw]
  · have hw : wrapInt 64 5 = 5 := by decide
    simp only [setValue, h5, IntType.bits, hw]
  · simp [setValue, h5s]

/-- C3 witness: a duration field given `"1h30m"`, which is no base-10 integer,
is bound through the duration parse. -/
theorem setValue_int_then_duration_witness :
    parseInt "1h30m" = .error (.numError "ParseInt" "1h30m" false) ∧
    parseDuration emptyWorld.durationFrac "1h30m" = .ok 5400000000000 ∧
    setValue emptyWorld (.int .duration 0) "1h30m"
      = (.int .duration (wrapInt 64 5400000000000), none) :=
  ⟨by decide, by decide,
    (setValue_int_then_duration emptyWorld .duration 0 "1h30m").2.2.1
      (.numError "ParseInt" "1h30m" false) 5400000000000 (by decide) rfl (by decide)⟩

/-! ## Environment overlay: frame -/

theorem load_state_after_file (w : World) (l : Loader)
    (h1 : (processDefaults w l.cfg).2 = none)
    (h2 : (l.fileStage w (processDefaults w l.cfg).1).2 = none) :
    (l.Load w).1 = (processEnv w (l.fileStage w (processDefaults w l.cfg).1).1).1 := by
  unfold Loader.Load
  simp only [h1, h2]
  cases (processEnv w (l.fileStage w (processDefaults w l.cfg).1).1).2 <;> rfl

/-- C4: a leaf field whose `env` rule names a variable that is unset or set to
the empty string, or that has no `env` rule, holds after `processEnv` exactly
what it held before, whether or not `processEnv` fails on another field; in
particular the value the field has after the file layer is the value it has
when `Load` returns. -/
theorem processEnv_frame (w : World) (s : Struct) (p : List Nat) (info : FieldInfo) (v : Leaf)
    (hp : s.leafAt p = some (info, v))
    (henv : info.envTag = "" ∨ w.lookupEnv info.envTag = none ∨
      w.lookupEnv info.envTag = some "") :
    (processEnv w s).1.leafAt p = some (info, v) ∧
    (∀ l : Loader, (processDefaults w l.cfg).2 = none →
      l.fileStage w (processDefaults w l.cfg).1 = (s, none) →
      (l.Load w).1.leafAt p = some (info, v)) := by
  have hrule : envRule w info v = none := by
    rcases henv with h | h | h
    · simp [envRule, h]
    · simp [envRule, World.getenv, h]
    · simp [envRule, World.getenv, h]
  have hframe : (processEnv w s).1.leafAt p = some (info, v) := by
    unfold processEnv
    rw [setEnv_eq_walk]
    exact walk_leafAt_frame w (envRule w) s p info v hp (Or.inr hrule)
  refine ⟨hframe, ?_⟩
  intro l h1 h2
  rw [load_state_after_file w l h1 (by rw [h2]), h2]
  exact hframe

/-- C4 witness: `Host` holds `"db.local"` and `APP_HOST` is set to the empty
string; `processEnv` leaves the field as it is. -/
theorem processEnv_frame_witness :
    (hostConfig "db.local").leafAt [0] = some (hostInfo, .str "db.local") ∧
    (worldWithEnv (fun _ => some "")).lookupEnv hostInfo.envTag = some "" ∧
    (processEnv (worldWithEnv (fun _ => some "")) (hostConfig "db.local")).1.leafAt [0]
      = some (hostInfo, .str "db.local") :=
  ⟨by decide, by decide,
    (processEnv_frame (worldWithEnv (fun _ => some "")) (hostConfig "db.local") [0] hostInfo
      (.str "db.local") (by decide) (Or.inr (Or.inr (by decide)))).1⟩

/-! ## Refresh: a failing tick -/

/-- C5: if, during `refresh`, the defaults layer fails on the fresh instance, or
the file layer fails on what the defaults layer left, or the environment layer
fails on what the file layer left, then the callback is not invoked and `l.cfg`
is what it was. -/
theorem refresh_failure_discards (w : World) (l : Loader)
    (hfail : (processDefaults w (zeroStruct l.cfg)).2 ≠ none ∨
      (l.fileStage w (processDefaults w (zeroStruct l.cfg)).1).2 ≠ none ∨
      (processEnv w (l.fileStage w (processDefaults w (zeroStruct l.cfg)).1).1).2 ≠ none) :
    (l.refresh w).callback = none ∧ (l.refresh w).cfg = l.cfg := by
  unfold Loader.refresh
  cases h1 : (processDefaults w (zeroStruct l.cfg)).2 with
  | some e => exact ⟨rfl, rfl⟩
  | none =>
    cases h2 : (l.fileStage w (processDefaults w (zeroStruct l.cfg)).1).2 with
    | some e => exact ⟨rfl, rfl⟩
    | none =>
      cases h3 : (processEnv w (l.fileStage w (processDefaults w (zeroStruct l.cfg)).1).1).2 with
      | some e => exact ⟨rfl, rfl⟩
      | none => simp [h1, h2, h3] at hfail

/-- C5 witness: the configured file cannot be read any more; the tick on a
loader with a registered callback invokes nothing and keeps `l.cfg`. -/
theorem refresh_failure_discards_witness :
    (Loader.fileStage emptyWorld ⟨"config.json", portConfig 9090, true⟩
      (processDefaults emptyWorld (zeroStruct (portConfig 9090))).1).2 ≠ none ∧
    (Loader.refresh emptyWorld ⟨"config.json", portConfig 9090, true⟩).callback = none ∧
    (Loader.refresh emptyWorld ⟨"config.json", portConfig 9090, true⟩).cfg = portConfig 9090 :=
  ⟨by decide,
    refresh_failure_discards emptyWorld ⟨"config.json", portConfig 9090, true⟩
      (Or.inr (Or.inl (by decide)))⟩

/-! ## File overlay: unsupported extensions -/

/-- C6: for a readable file whose extension, lower-cased as `loadFile` does, is
none of `.json`, `.yaml`, `.yml`, `loadFile` returns the unsupported-extension
error and the target as it was, whatever the decoders are (none is invoked); and
`Load` with that path configured returns an error. -/
theorem loadFile_unsupported_extension (w : World) (path : String) (data : Bytes)
    (target : Struct) (hread : w.readFile path = .ok data)
    (hext : toLower (filepathExt path) ≠ ".json" ∧ toLower (filepathExt path) ≠ ".yaml" ∧
      toLower (filepathExt path) ≠ ".yml") :
    loadFile w path target = (target, some (.unsupportedExt (toLower (filepathExt path)))) ∧
    (∀ json yaml : Bytes → Struct → Struct × Option GoError,
      loadFile { w with jsonUnmarshal := json, yamlUnmarshal := yaml } path target
        = (target, some (.unsupportedExt (toLower (filepathExt path))))) ∧
    (∀ l : Loader, l.configFile = path → path ≠ "" → (l.Load w).2 ≠ none) := by
  have hlf : ∀ (w1 : World) (t : Struct), w1.readFile path = .ok data →
      loadFile w1 path t = (t, some (.unsupportedExt (toLower (filepathExt path)))) := by
    intro w1 t h
    unfold loadFile
    simp [h, hext.1, hext.2.1, hext.2.2]
  refine ⟨hlf w target hread, fun json yaml => hlf _ target hread, ?_⟩
  intro l hl hne
  unfold Loader.Load
  cases h1 : (processDefaults w l.cfg).2 with
  | some e => simp
  | none =>
    have h2 : (l.fileStage w (processDefaults w l.cfg).1).2
        = some (.unsupportedExt (toLower (filepathExt path))) := by
      simp [Loader.fileStage, hl, hne, hlf w _ hread]
    simp [h2]

/-- C6 witness: `config.toml` is readable and `loadFile` rejects it. -/
theorem loadFile_unsupported_extension_witness :
    readableWorld.readFile "config.toml" = .ok [] ∧
    toLower (filepathExt "config.toml") = ".toml" ∧
    loadFile readableWorld "config.toml" (portConfig 8080)
      = (portConfig 8080, some (.unsupportedExt ".toml")) :=
  ⟨rfl, by decide,
    (loadFile_unsupported_extension readableWorld "config.toml" [] (portConfig 8080) rfl
      (by decide)).1⟩

/-! ## Defaults: idempotence -/

/-- C7: applying `processDefaults` to the structure left by `processDefaults`
leaves that structure as it is and returns the same error or nil. -/
theorem processDefaults_idempotent (w : World) (s : Struct) :
    processDefaults w (processDefaults w s).1 = processDefaults w s := by
  unfold processDefaults
  simp only [setDefaults_eq_walk]
  exact walk_idem w (defaultRule w) (defaultRule_after_set w) s

/-! ## Load: the first failing layer -/

theorem setValue_congr (w w1 : World) (hf : w1.parseFloat = w.parseFloat)
    (hr : w1.toFloat32 = w.toFloat32) (hd : w1.durationFrac = w.durationFrac)
    (v : Leaf) (s : String) : setValue w1 v s = setValue w v s := by
  cases v <;> simp only [setValue, hf, hr, hd]

theorem walk_congr (w w1 : World) (rule : FieldInfo → Leaf → Option (String × String))
    (hsv : ∀ v s, setValue w1 v s = setValue w v s) (s : Struct) :
    walk w1 rule s = walk w rule s := by
  induction s with
  | done => rfl
  | leaf info v rest ih => simp only [walk, hsv, ih]
  | nest info vp inner rest ihi ihr => simp only [walk, ihi, ihr]

theorem processDefaults_congr (w w1 : World) (hf : w1.parseFloat = w.parseFloat)
    (hr : w1.toFloat32 = w.toFloat32) (hd : w1.durationFrac = w.durationFrac)
    (hz : w1.floatIsZero = w.floatIsZero) (s : Struct) :
    processDefaults w1 s = processDefaults w s := by
  unfold processDefaults
  rw [setDefaults_eq_walk, setDefaults_eq_walk]
  have hrule : defaultRule w1 = defaultRule w := by
    funext info v
    cases v <;> simp only [defaultRule, isZero, hz]
  rw [hrule]
  exact walk_congr w w1 (defaultRule w) (setValue_congr w w1 hf hr hd) s

/-- C8: `Load` returns the error of the first failing layer wrapped with its
stage, and the target is then exactly what that layer left: if
`processDefaults` fails, the result is the same whatever the file system, the
decoders and the environment are (the file is not read, no variable is
applied); if the file layer fails, the result is the same whatever the
environment is; `Load` returns nil exactly when the defaults layer, the file
layer (when a path is configured) and the environment layer all succeed. -/
theorem load_first_failure (w : World) (l : Loader) :
    (∀ e : GoError, (processDefaults w l.cfg).2 = some e →
      l.Load w = ((processDefaults w l.cfg).1, some (.wrap "failed to process defaults" e))) ∧
    (∀ e : GoError, (processDefaults w l.cfg).2 = none →
      (l.fileStage w (processDefaults w l.cfg).1).2 = some e →
      l.Load w = ((l.fileStage w (processDefaults w l.cfg).1).1,
        some (.wrap "failed to load config file" e))) ∧
    (∀ e : GoError, (processDefaults w l.cfg).2 = none →
      (l.fileStage w (processDefaults w l.cfg).1).2 = none →
      (processEnv w (l.fileStage w (processDefaults w l.cfg).1).1).2 = some e →
      l.Load w = ((processEnv w (l.fileStage w (processDefaults w l.cfg).1).1).1,
        some (.wrap "failed to process env vars" e))) ∧
    ((l.Load w).2 = none ↔
      (processDefaults w l.cfg).2 = none ∧
      (l.fileStage w (processDefaults w l.cfg).1).2 = none ∧
      (processEnv w (l.fileStage w (processDefaults w l.cfg).1).1).2 = none) ∧
    (∀ w1 : World, w1.parseFloat = w.parseFloat → w1.toFloat32 = w.toFloat32 →
      w1.durationFrac = w.durationFrac → w1.floatIsZero = w.floatIsZero →
      (processDefaults w l.cfg).2 ≠ none → l.Load w1 = l.Load w) ∧
    (∀ env : String → Option String, (processDefaults w l.cfg).2 = none →
      (l.fileStage w (processDefaults w l.cfg).1).2 ≠ none →
      l.Load { w with lookupEnv := env } = l.Load w) := by
  have hA : ∀ (w0 : World) (e : GoError), (processDefaults w0 l.cfg).2 = some e →
      l.Load w0 = ((processDefaults w0 l.cfg).1, some (.wrap "failed to process defaults" e)) := by
    intro w0 e h
    unfold Loader.Load
    simp only [h]
  have hB : ∀ (w0 : World) (e : GoError), (processDefaults w0 l.cfg).2 = none →
      (l.fileStage w0 (processDefaults w0 l.cfg).1).2 = some e →
      l.Load w0 = ((l.fileStage w0 (processDefaults w0 l.cfg).1).1,
        some (.wrap "failed to load config file" e)) := by
    intro w0 e h1 h2
    unfold Loader.Load
    simp only [h1, h2]
  refine ⟨hA w, hB w, ?_, ?_, ?_, ?_⟩
  · intro e h1 h2 h3
    unfold Loader.Load
    simp only [h1, h2, h3]
  · constructor
    · intro hok
      have h := load_ok_stages w l hok
      exact ⟨h.1, h.2.1, h.2.2.1⟩
    · intro h
      unfold Loader.Load
      simp only [h.1, h.2.1, h.2.2]
  · intro w1 hf hr hd hz hfail
    cases h : (processDefaults w l.cfg).2 with
    | none => exact absurd h hfail
    | some e =>
      have hc := processDefaults_congr w w1 hf hr hd hz l.cfg
      rw [hA w e h, hA w1 e (by rw [hc]; exact h), hc]
  · intro env h1 hfail
    cases h : (l.fileStage w (processDefaults w l.cfg).1).2 with
    | none => exact absurd h hfail
    | some e =>
      have hc : processDefaults { w with lookupEnv := env } l.cfg = processDefaults w l.cfg :=
        processDefaults_congr w { w with lookupEnv := env } rfl rfl rfl rfl l.cfg
      have hfs : ∀ t : Struct, l.fileStage { w with lookupEnv := env } t = l.fileStage w t :=
        fun _ => rfl
      rw [hB w e h1 h, hB _ e (by rw [hc]; exact h1) (by rw [hc, hfs]; exact h), hc, hfs]

/-- C8 witness: `Port` has the default `"8080"` and the later field `Timeout`
the malformed default `"soon"`; `Load` returns the wrapped error of the
defaults stage and the target keeps the 8080 written before the failure. -/
theorem load_first_failure_witness :
    (processDefaults emptyWorld (portTimeoutConfig 0 0)).2
      = some (.wrap "failed to set default for field Timeout"
          (.durationError "time: invalid duration " "soon")) ∧
    Loader.Load emptyWorld ⟨"config.json", portTimeoutConfig 0 0, false⟩
      = (portTimeoutConfig 8080 0,
          some (.wrap "failed to process defaults"
            (.wrap "failed to set default for field Timeout"
              (.durationError "time: invalid duration " "soon")))) :=
  ⟨by decide,
    ((load_first_failure emptyWorld ⟨"config.json", portTimeoutConfig 0 0, false⟩).1
      (.wrap "failed to set default for field Timeout"
        (.durationError "time: invalid duration " "soon")) (by decide)).trans (by decide)⟩

/-! ## The integer parsers against base-10 notation -/

theorem le_decimalFrom (cs : List Char) : ∀ n : Nat, n ≤ decimalFrom n cs := by
  induction cs with
  | nil => intro n; exact Nat.le_refl n
  | cons c cs ih =>
    intro n
    have h := ih (n * 10 + digitVal c)
    simp only [decimalFrom, List.foldl_cons] at h ⊢
    omega

theorem parseUintLoop_ok_iff (fn s0 : String) (cs : List Char) :
    ∀ n m : Nat, n ≤ maxUint64 →
      (parseUintLoop fn s0 cs n = .ok m ↔
        cs.all isDigit = true ∧ decimalFrom n cs = m ∧ m ≤ maxUint64) := by
  have hmax : maxUint64 = 18446744073709551615 := by decide
  induction cs with
  | nil =>
    intro n m hn
    simp only [parseUintLoop, Except.ok.injEq, List.all_nil, decimalFrom, List.foldl_nil, true_and]
    constructor
    · intro h; subst h; exact ⟨rfl, hn⟩
    · intro h; exact h.1
  | cons c cs ih =>
    intro n m hn
    have hge := le_decimalFrom cs (n * 10 + digitVal c)
    have hstep : decimalFrom n (c :: cs) = decimalFrom (n * 10 + digitVal c) cs := rfl
    by_cases hd : isDigit c = true
    · by_cases h1 : n ≥ maxUint64 / 10 + 1
      · simp only [parseUintLoop, hd, h1, if_true, List.all_cons, Bool.true_and, hstep]
        constructor
        · intro h; cases h
        · rintro ⟨_, h2, h3⟩
          rw [hmax] at h1 h3
          omega
      · by_cases h2 : n * 10 + digitVal c > maxUint64
        · simp only [parseUintLoop, hd, h1, h2, if_true, if_false, List.all_cons, Bool.true_and,
            hstep]
          constructor
          · intro h; cases h
          · rintro ⟨_, h3, h4⟩
            omega
        · simp only [parseUintLoop, hd, h1, h2, if_true, if_false, List.all_cons, Bool.true_and,
            hstep]
          exact ih _ m (by omega)
    · simp only [parseUintLoop, hd, List.all_cons, Bool.false_and, Bool.false_eq_true, if_false,
        false_and, iff_false]
      intro h; cases h

theorem parseUintChars_ok_iff (fn s0 : String) (cs : List Char) (m : Nat) :
    parseUintChars fn s0 cs = .ok m ↔
      cs ≠ [] ∧ cs.all isDigit = true ∧ decimalValue cs = m ∧ m ≤ maxUint64 := by
  unfold parseUintChars decimalValue
  by_cases h : cs = []
  · simp [h]
  · simp only [h, if_false, ne_eq, not_false_eq_true, true_and]
    exact parseUintLoop_ok_iff fn s0 cs 0 m (Nat.zero_le _)

theorem parseUint_ok_iff (s : String) (m : Nat) :
    parseUint s = .ok m ↔
      isBase10Unsigned s = true ∧ decimalValue s.toList = m ∧ m < 2 ^ 64 := by
  have hmax : maxUint64 = 18446744073709551615 := by decide
  unfold parseUint isBase10Unsigned
  rw [parseUintChars_ok_iff, hmax]
  simp only [Bool.and_eq_true, Bool.not_eq_true', List.isEmpty_eq_false, ne_eq]
  constructor
  · rintro ⟨h1, h2, h3, h4⟩
    exact ⟨⟨h1, h2⟩, h3, by omega⟩
  · rintro ⟨⟨h1, h2⟩, h3, h4⟩
    exact ⟨h1, h2, h3, by omega⟩

theorem parseInt_ok_iff (s : String) (i : Int) :
    parseInt s = .ok i ↔
      isBase10Integer s = true ∧ base10Value s = i ∧ -(2 ^ 63) ≤ i ∧ i < 2 ^ 63 := by
  have hmax : maxUint64 = 18446744073709551615 := by decide
  unfold parseInt isBase10Integer base10Value signedDigits
  cases hs : s.toList with
  | nil => simp
  | cons c cs =>
    simp only [List.head?_cons, Option.some.injEq]
    generalize (if c = '+' ∨ c = '-' then cs else c :: cs) = digits
    cases hp : parseUintChars "ParseInt" s digits with
    | error e =>
      simp only [false_iff, not_and, reduceCtorEq]
      intro hb hv hlo hhi
      have hnot := (parseUintChars_ok_iff "ParseInt" s digits (decimalValue digits)).not.mp
        (by rw [hp]; simp)
      apply hnot
      simp only [Bool.and_eq_true, Bool.not_eq_true', List.isEmpty_eq_false] at hb
      refine ⟨hb.1, hb.2, rfl, ?_⟩
      rw [hmax]
      by_cases hneg : c = '-'
      · simp only [hneg, if_true] at hv
        omega
      · simp only [hneg, if_false] at hv
        omega
    | ok un =>
      obtain ⟨h1, h2, h3, h4⟩ := (parseUintChars_ok_iff "ParseInt" s digits un).mp hp
      have hb : (!digits.isEmpty && digits.all isDigit) = true := by
        simp only [Bool.and_eq_true, Bool.not_eq_true', List.isEmpty_eq_false]
        exact ⟨h1, h2⟩
      simp only [hb, h3, true_and]
      by_cases hneg : c = '-'
      · simp only [hneg, decide_True, Bool.not_true, Bool.false_and, Bool.false_eq_true, if_false,
          Bool.true_and, if_true, decide_eq_true_eq]
        by_cases hr : un > 2 ^ 63
        · simp only [hr, if_true, false_iff, not_and, not_lt, reduceCtorEq]
          intro h5 h6
          omega
        · simp only [hr, if_false, Except.ok.injEq]
          constructor
          · intro h; subst h; omega
          · intro h; exact h.1
      · simp only [hneg, decide_False, Bool.not_false, Bool.true_and, Bool.false_and,
          Bool.false_eq_true, if_false, decide_eq_true_eq]
        by_cases hr : un ≥ 2 ^ 63
        · simp only [hr, if_true, false_iff, not_and, not_lt, reduceCtorEq]
          intro h5 h6
          omega
        · simp only [hr, if_false, Except.ok.injEq]
          constructor
          · intro h; subst h; omega
          · intro h; exact h.1

theorem parseBool_ok_iff (s : String) :
    (∃ b, parseBool s = .ok b) ↔ isBoolLiteral s = true := by
  unfold parseBool isBoolLiteral
  by_cases h1 : s = "1" ∨ s = "t" ∨ s = "T" ∨ s = "true" ∨ s = "TRUE" ∨ s = "True"
  · simp only [h1, if_true, Except.ok.injEq, exists_eq', true_iff, decide_eq_true_eq]
    simp only [List.mem_cons, List.mem_singleton]
    tauto
  · by_cases h2 : s = "0" ∨ s = "f" ∨ s = "F" ∨ s = "false" ∨ s = "FALSE" ∨ s = "False"
    · simp only [h1, h2, if_true, if_false, Except.ok.injEq, exists_eq', true_iff,
        decide_eq_true_eq]
      simp only [List.mem_cons, List.mem_singleton]
      tauto
    · simp only [h1, h2, if_false, reduceCtorEq, exists_false, false_iff, decide_eq_true_eq]
      simp only [List.mem_cons, List.mem_singleton, List.mem_nil_iff]
      tauto

/-! ## Coercion failures -/

theorem setValue_bool_err (w : World) (b : Bool) (s : String) :
    (setValue w (.bool b) s).2 ≠ none ↔ isBoolLiteral s = false := by
  have hb := parseBool_ok_iff s
  cases hp : parseBool s with
  | ok b1 =>
    have : isBoolLiteral s = true := hb.mp ⟨b1, hp⟩
    simp [setValue, hp, this]
  | error e =>
    have : isBoolLiteral s = false := by
      cases hl : isBoolLiteral s with
      | false => rfl
      | true =>
        obtain ⟨b1, h⟩ := hb.mpr hl
        rw [hp] at h
        cases h
    simp [setValue, hp, this]

theorem setValue_int_err (w : World) (t : IntType) (i : Int) (s : String) :
    (setValue w (.int t i) s).2 ≠ none ↔
      ¬ (isBase10Integer s = true ∧ -(2 ^ 63) ≤ base10Value s ∧ base10Value s < 2 ^ 63) ∧
      (t = .duration → ∀ d, parseDuration w.durationFrac s ≠ .ok d) := by
  cases hp : parseInt s with
  | ok n =>
    have h := (parseInt_ok_iff s n).mp hp
    have hr : isBase10Integer s = true ∧ -(2 ^ 63) ≤ base10Value s ∧ base10Value s < 2 ^ 63 :=
      ⟨h.1, by rw [h.2.1]; exact h.2.2.1, by rw [h.2.1]; exact h.2.2.2⟩
    constructor
    · intro hne
      simp [setValue, hp] at hne
    · intro hne
      exact absurd hr hne.1
  | error e =>
    have hr : ¬ (isBase10Integer s = true ∧ -(2 ^ 63) ≤ base10Value s ∧
        base10Value s < 2 ^ 63) := by
      intro hr
      have h := (parseInt_ok_iff s (base10Value s)).mpr ⟨hr.1, rfl, hr.2.1, hr.2.2⟩
      rw [hp] at h
      cases h
    by_cases ht : t = .duration
    · subst ht
      cases hd : parseDuration w.durationFrac s with
      | ok d =>
        constructor
        · intro hne
          simp [setValue, hp, hd] at hne
        · intro hne
          exact absurd rfl (hne.2 rfl d)
      | error e1 =>
        constructor
        · intro _
          exact ⟨hr, fun _ d h => by cases h⟩
        · intro _
          simp [setValue, hp, hd]
    · constructor
      · intro _
        exact ⟨hr, fun h => absurd h ht⟩
      · intro _
        simp [setValue, hp, ht]

theorem setValue_uint_err (w : World) (t : UintType) (n : Nat) (s : String) :
    (setValue w (.uint t n) s).2 ≠ none ↔
      ¬ (isBase10Unsigned s = true ∧ decimalValue s.toList < 2 ^ 64) := by
  cases hp : parseUint s with
  | ok m =>
    have h := (parseUint_ok_iff s m).mp hp
    have hr : isBase10Unsigned s = true ∧ decimalValue s.toList < 2 ^ 64 :=
      ⟨h.1, by rw [h.2.1]; exact h.2.2⟩
    constructor
    · intro hne
      simp [setValue, hp] at hne
    · intro hne
      exact absurd hr hne
  | error e =>
    constructor
    · intro _ hr
      have h := (parseUint_ok_iff s (decimalValue s.toList)).mpr ⟨hr.1, rfl, hr.2⟩
      rw [hp] at h
      cases h
    · intro _
      simp [setValue, hp]

theorem setValue_float_err (w : World) (t : FloatType) (b : Nat) (s : String) :
    (setValue w (.float t b) s).2 ≠ none ↔ ∀ f, w.parseFloat s ≠ .ok f := by
  cases hp : w.parseFloat s with
  | ok f =>
    constructor
    · intro hne
      simp [setValue, hp] at hne
    · intro hne
      exact absurd rfl (hne f)
  | error e =>
    constructor
    · intro _ f h
      cases h
    · intro _
      simp [setValue, hp]

/-- C9 (amended): `setValue` returns an error if and only if the field is a bool
and the token is not a boolean literal, or a signed integer and the token is not
a base-10 integer within the signed 64-bit range nor (for `time.Duration`) a
text `time.ParseDuration` accepts, or an unsigned integer and the token is not a
base-10 unsigned integer below `2 ^ 64`, or a float and the token is not a text
`strconv.ParseFloat` accepts; it never errors for string fields.  When an
assignable leaf has an `env` variable whose non-empty value fails to coerce,
`processEnv` returns an error, every error it returns names the variable and the
field of such a leaf, and `Load` returns an error whenever the environment walk
on what the file layer left would. -/
theorem setValue_error_iff (w : World) (v : Leaf) (s : String) :
    ((setValue w v s).2 ≠ none ↔
      (∃ b, v = .bool b ∧ isBoolLiteral s = false) ∨
      (∃ t i, v = .int t i ∧
        ¬ (isBase10Integer s = true ∧ -(2 ^ 63) ≤ base10Value s ∧ base10Value s < 2 ^ 63) ∧
        (t = .duration → ∀ d, parseDuration w.durationFrac s ≠ .ok d)) ∨
      (∃ t n, v = .uint t n ∧
        ¬ (isBase10Unsigned s = true ∧ decimalValue s.toList < 2 ^ 64)) ∨
      (∃ t b, v = .float t b ∧ ∀ f, w.parseFloat s ≠ .ok f)) ∧
    (∀ x : String, (setValue w (.str x) s).2 = none) ∧
    (∀ (cfg : Struct) (p : List Nat) (info : FieldInfo) (leaf : Leaf),
      cfg.leafAt p = some (info, leaf) → cfg.settableAt p = true →
      info.envTag ≠ "" → w.getenv info.envTag ≠ "" →
      (setValue w leaf (w.getenv info.envTag)).2 ≠ none →
      (processEnv w cfg).2 ≠ none) ∧
    (∀ (cfg : Struct) (e : GoError), (processEnv w cfg).2 = some e →
      ∃ (p : List Nat) (info : FieldInfo) (leaf : Leaf) (cause : GoError),
        cfg.leafAt p = some (info, leaf) ∧ cfg.settableAt p = true ∧
        info.envTag ≠ "" ∧ w.getenv info.envTag ≠ "" ∧
        (setValue w leaf (w.getenv info.envTag)).2 = some cause ∧
        e = .wrap ("failed to set env " ++ info.envTag ++ " for field " ++ info.name) cause) ∧
    (∀ l : Loader,
      (processEnv w (l.fileStage w (processDefaults w l.cfg).1).1).2 ≠ none →
      (l.Load w).2 ≠ none) := by
  refine ⟨?_, fun x => rfl, ?_, ?_, ?_⟩
  · cases v with
    | str x =>
      constructor
      · intro h; simp [setValue] at h
      · rintro (⟨_, hv, _⟩ | ⟨_, _, hv, _⟩ | ⟨_, _, hv, _⟩ | ⟨_, _, hv, _⟩) <;> cases hv
    | bool b =>
      rw [setValue_bool_err]
      constructor
      · intro h; exact Or.inl ⟨b, rfl, h⟩
      · rintro (⟨_, hv, h⟩ | ⟨_, _, hv, _⟩ | ⟨_, _, hv, _⟩ | ⟨_, _, hv, _⟩)
        · exact h
        all_goals cases hv
    | int t i =>
      rw [setValue_int_err]
      constructor
      · intro h; exact Or.inr (Or.inl ⟨t, i, rfl, h.1, h.2⟩)
      · rintro (⟨_, hv, _⟩ | ⟨_, _, hv, h1, h2⟩ | ⟨_, _, hv, _⟩ | ⟨_, _, hv, _⟩)
        · cases hv
        · cases hv; exact ⟨h1, h2⟩
        all_goals cases hv
    | uint t n =>
      rw [setValue_uint_err]
      constructor
      · intro h; exact Or.inr (Or.inr (Or.inl ⟨t, n, rfl, h⟩))
      · rintro (⟨_, hv, _⟩ | ⟨_, _, hv, _⟩ | ⟨_, _, hv, h⟩ | ⟨_, _, hv, _⟩)
        · cases hv
        · cases hv
        · cases hv; exact h
        · cases hv
    | float t b =>
      rw [setValue_float_err]
      constructor
      · intro h; exact Or.inr (Or.inr (Or.inr ⟨t, b, rfl, h⟩))
      · rintro (⟨_, hv, _⟩ | ⟨_, _, hv, _⟩ | ⟨_, _, hv, _⟩ | ⟨_, _, hv, h⟩)
        · cases hv
        · cases hv
        · cases hv
        · cases hv; exact h
    | strSlice xs =>
      constructor
      · intro h; simp [setValue] at h
      · rintro (⟨_, hv, _⟩ | ⟨_, _, hv, _⟩ | ⟨_, _, hv, _⟩ | ⟨_, _, hv, _⟩) <;> cases hv
    | otherSlice b =>
      constructor
      · intro h; simp [setValue] at h
      · rintro (⟨_, hv, _⟩ | ⟨_, _, hv, _⟩ | ⟨_, _, hv, _⟩ | ⟨_, _, hv, _⟩) <;> cases hv
    | nilPtr =>
      constructor
      · intro h; simp [setValue] at h
      · rintro (⟨_, hv, _⟩ | ⟨_, _, hv, _⟩ | ⟨_, _, hv, _⟩ | ⟨_, _, hv, _⟩) <;> cases hv
    | other z =>
      constructor
      · intro h; simp [setValue] at h
      · rintro (⟨_, hv, _⟩ | ⟨_, _, hv, _⟩ | ⟨_, _, hv, _⟩ | ⟨_, _, hv, _⟩) <;> cases hv
  · intro cfg p info leaf hp hs ht he hf
    unfold processEnv
    rw [setEnv_eq_walk]
    exact walk_fails_of_failing_leaf w (envRule w) cfg p info leaf (w.getenv info.envTag)
      ("failed to set env " ++ info.envTag ++ " for field " ++ info.name) hp hs
      (by simp [envRule, ht, he]) hf
  · intro cfg e he
    unfold processEnv at he
    rw [setEnv_eq_walk] at he
    obtain ⟨p, info, leaf, token, context, cause, h1, h2, h3, h4, h5⟩ :=
      walk_error_origin w (envRule w) cfg e he
    unfold envRule at h3
    by_cases hc : info.envTag ≠ "" ∧ w.getenv info.envTag ≠ ""
    · simp only [hc, ne_eq, not_false_eq_true, and_self, if_true, Option.some.injEq,
        Prod.mk.injEq] at h3
      obtain ⟨rfl, rfl⟩ := h3
      exact ⟨p, info, leaf, cause, h1, h2, hc.1, hc.2, h4, h5⟩
    · simp [hc] at h3
  · intro l hf hok
    exact hf (load_ok_stages w l hok).2.2.1

/-- C9 witness: `abc` is no base-10 integer, `setValue` rejects it for an `int`
field, and `processEnv` with `WORKERS=abc` returns the error that names the
variable `WORKERS` and the field `Workers`. -/
theorem setValue_error_iff_witness :
    isBase10Integer "abc" = false ∧
    (setValue emptyWorld (.int .int 0) "abc").2 ≠ none ∧
    (processEnv (worldWithEnv badWorkersEnv) (workersPortConfig 0 0)).2
      = some (.wrap "failed to set env WORKERS for field Workers"
          (.numError "ParseInt" "abc" false)) :=
  ⟨by decide,
    (setValue_error_iff emptyWorld (.int .int 0) "abc").1.mpr
      (Or.inr (Or.inl ⟨.int, 0, rfl, by decide, fun h => by cases h⟩)),
    by decide⟩

/-- C9 counterexample: `9223372036854775808` is a base-10 integer and
`18446744073709551616` a base-10 unsigned integer, yet `setValue` returns a
range error for the first on an `int64` field and for the second on a `uint64`
field, and leaves both fields as they were. -/
theorem setValue_range_counterexample :
    isBase10Integer "9223372036854775808" = true ∧
    setValue emptyWorld (.int .int64 0) "9223372036854775808"
      = (.int .int64 0, some (.numError "ParseInt" "9223372036854775808" true)) ∧
    isBase10Unsigned "18446744073709551616" = true ∧
    setValue emptyWorld (.uint .uint64 0) "18446744073709551616"
      = (.uint .uint64 0, some (.numError "ParseUint" "18446744073709551616" true)) := by
  decide

/-! ## String lists -/

theorem splitComma_ne_nil (cs : List Char) : splitComma cs ≠ [] := by
  cases cs with
  | nil => simp [splitComma]
  | cons c cs =>
    unfold splitComma
    by_cases h : c = ','
    · simp [h]
    · simp only [h, if_false]
      cases splitComma cs <;> simp

theorem splitComma_length (cs : List Char) :
    (splitComma cs).length = cs.count ',' + 1 := by
  induction cs with
  | nil => rfl
  | cons c cs ih =>
    unfold splitComma
    by_cases h : c = ','
    · subst h
      simp [ih]
    · have hne := splitComma_ne_nil cs
      have hc : (c == ',') = false := by simpa using h
      simp only [h, if_false, List.count_cons, hc, Bool.false_eq_true, add_zero]
      cases hsp : splitComma cs with
      | nil => exact absurd hsp hne
      | cons q qs =>
        rw [hsp] at ih
        simpa using ih

theorem intercalate_splitComma (cs : List Char) :
    List.intercalate [','] (splitComma cs) = cs := by
  induction cs with
  | nil => rfl
  | cons c cs ih =>
    have hne := splitComma_ne_nil cs
    unfold splitComma
    by_cases h : c = ','
    · subst h
      cases hsp : splitComma cs with
      | nil => exact absurd hsp hne
      | cons q qs =>
        rw [hsp] at ih
        simp only [if_true, List.intercalate, List.intersperse_cons_cons, List.flatten_cons,
          List.nil_append, List.singleton_append, List.cons.injEq, true_and] at ih ⊢
        exact ih
    · simp only [h, if_false]
      cases hsp : splitComma cs with
      | nil => exact absurd hsp hne
      | cons q qs =>
        rw [hsp] at ih
        cases qs with
        | nil =>
          simp only [List.intercalate, List.intersperse_single, List.flatten_cons,
            List.flatten_nil, List.append_nil] at ih ⊢
          rw [ih]
        | cons r rs =>
          simp only [List.intercalate, List.intersperse_cons_cons, List.flatten_cons,
            List.cons_append] at ih ⊢
          rw [ih]

theorem comma_not_mem_splitComma (cs : List Char) :
    ∀ part ∈ splitComma cs, ',' ∉ part := by
  induction cs with
  | nil => simp [splitComma]
  | cons c cs ih =>
    have hne := splitComma_ne_nil cs
    unfold splitComma
    by_cases h : c = ','
    · simp only [h, if_true, List.mem_cons]
      rintro part (rfl | hp)
      · simp
      · exact ih part hp
    · simp only [h, if_false]
      cases hsp : splitComma cs with
      | nil => exact absurd hsp hne
      | cons q qs =>
        rw [hsp] at ih
        simp only [List.mem_cons]
        rintro part (rfl | hp)
        · simp only [List.mem_cons, not_or]
          exact ⟨fun h1 => h h1.symm, ih q (by simp)⟩
        · exact ih part (by simp [hp])

theorem trimSpace_eq (cs : List Char) :
    trimSpace cs = List.rdropWhile isSpace (cs.dropWhile isSpace) := rfl

theorem trimSpace_head (cs : List Char) (c : Char) (h : (trimSpace cs).head? = some c) :
    isSpace c = false := by
  rw [trimSpace_eq] at h
  obtain ⟨t, ht⟩ := List.rdropWhile_prefix isSpace (l := cs.dropWhile isSpace)
  obtain ⟨ys, hys⟩ := List.head?_eq_some_iff.mp h
  have hd := List.head?_dropWhile_not isSpace cs
  rw [← ht, hys] at hd
  simpa using hd

theorem trimSpace_last (cs : List Char) (c : Char) (h : (trimSpace cs).getLast? = some c) :
    isSpace c = false := by
  rw [trimSpace_eq] at h
  have hne : List.rdropWhile isSpace (cs.dropWhile isSpace) ≠ [] := by
    intro h0
    rw [h0] at h
    simp at h
  have hl := List.rdropWhile_last_not isSpace (cs.dropWhile isSpace) hne
  rw [List.getLast?_eq_getLast _ hne] at h
  simp only [Option.some.injEq] at h
  rw [h] at hl
  simpa using hl

theorem trimSpace_decomposition (cs : List Char) :
    ∃ pre post : List Char, cs = pre ++ trimSpace cs ++ post ∧
      (∀ c ∈ pre, isSpace c = true) ∧ (∀ c ∈ post, isSpace c = true) := by
  refine ⟨cs.takeWhile isSpace, List.rtakeWhile isSpace (cs.dropWhile isSpace), ?_, ?_, ?_⟩
  · have hr : ∀ l : List Char, List.rdropWhile isSpace l ++ List.rtakeWhile isSpace l = l := by
      intro l
      simp only [List.rdropWhile, List.rtakeWhile, ← List.reverse_append,
        List.takeWhile_append_dropWhile, List.reverse_reverse]
    rw [trimSpace_eq, List.append_assoc, hr, List.takeWhile_append_dropWhile]
  · intro c hc
    exact List.mem_takeWhile_imp hc
  · intro c hc
    exact List.mem_rtakeWhile_imp hc

/-- C10: for every token `s`, `setValue` on a slice-of-string field returns nil
and replaces the field with the pieces of `s` between consecutive commas, in
order, each with its surrounding white space removed: the pieces joined by
commas give `s` back and none contains a comma, there are as many elements as
commas in `s` plus one, each element is its piece with only white space taken
from both ends, and no element starts or ends with white space.  On a slice of
another element type `setValue` returns nil and leaves the field as it was. -/
theorem setValue_string_slice (w : World) (s : String) :
    (∀ xs : Option (List String), setValue w (.strSlice xs) s
      = (.strSlice (some ((splitComma s.toList).map (fun part => String.mk (trimSpace part)))),
          none)) ∧
    List.intercalate [','] (splitComma s.toList) = s.toList ∧
    (∀ part ∈ splitComma s.toList, ',' ∉ part) ∧
    ((splitComma s.toList).map (fun part => String.mk (trimSpace part))).length
      = s.toList.count ',' + 1 ∧
    (∀ part ∈ splitComma s.toList, ∃ pre post : List Char,
      part = pre ++ trimSpace part ++ post ∧
      (∀ c ∈ pre, isSpace c = true) ∧ (∀ c ∈ post, isSpace c = true)) ∧
    (∀ x ∈ (splitComma s.toList).map (fun part => String.mk (trimSpace part)), ∀ c : Char,
      (x.toList.head? = some c → isSpace c = false) ∧
      (x.toList.getLast? = some c → isSpace c = false)) ∧
    (∀ isNil : Bool, setValue w (.otherSlice isNil) s = (.otherSlice isNil, none)) := by
  refine ⟨fun xs => rfl, intercalate_splitComma _, comma_not_mem_splitComma _, ?_,
    fun part _ => trimSpace_decomposition part, ?_, fun isNil => rfl⟩
  · rw [List.length_map, splitComma_length]
  · intro x hx c
    obtain ⟨part, _, rfl⟩ := List.mem_map.mp hx
    exact ⟨trimSpace_head part c, trimSpace_last part c⟩

/-- C10 witness: the token `" a, b ,c,,"` has four commas and yields the five
elements `a`, `b`, `c` and two empty strings. -/
theorem setValue_string_slice_witness :
    setValue emptyWorld (.strSlice none) " a, b ,c,,"
      = (.strSlice (some ["a", "b", "c", "", ""]), none) :=
  ((setValue_string_slice emptyWorld " a, b ,c,,").1 none).trans (by decide)

/-! ## The duration loop never runs out of fuel -/

theorem leadingInt_length (cs : List Char) :
    ∀ (x v : Nat) (rest : List Char), leadingInt cs x = some (v, rest) →
      rest.length ≤ cs.length := by
  induction cs with
  | nil =>
    intro x v rest h
    simp only [leadingInt, Option.some.injEq, Prod.mk.injEq] at h
    rw [← h.2]
  | cons c cs ih =>
    intro x v rest h
    unfold leadingInt at h
    by_cases hd : isDigit c = true
    · simp only [hd, if_true] at h
      split at h
      · cases h
      · split at h
        · cases h
        · have := ih _ _ _ h
          simp only [List.length_cons]
          omega
    · simp only [hd, Bool.false_eq_true, if_false, Option.some.injEq, Prod.mk.injEq] at h
      rw [← h.2]

theorem leadingFraction_length (cs : List Char) :
    ∀ (x scale : Nat) (overflow : Bool),
      (leadingFraction cs x scale overflow).2.2.length ≤ cs.length := by
  induction cs with
  | nil => intro x scale overflow; simp [leadingFraction]
  | cons c cs ih =>
    intro x scale overflow
    unfold leadingFraction
    by_cases hd : isDigit c = true
    · simp only [hd, if_true, List.length_cons]
      split
      · exact Nat.le_succ_of_le (ih _ _ _)
      · split
        · exact Nat.le_succ_of_le (ih _ _ _)
        · split
          · exact Nat.le_succ_of_le (ih _ _ _)
          · exact Nat.le_succ_of_le (ih _ _ _)
    · simp [hd]

theorem fractionPart_length (cs : List Char) : (fractionPart cs).2.2.1.length ≤ cs.length := by
  cases cs with
  | nil => simp [fractionPart]
  | cons c t =>
    unfold fractionPart
    by_cases h : c = '.'
    · simp only [h, if_true, List.length_cons]
      exact Nat.le_succ_of_le (leadingFraction_length t 0 1 false)
    · simp [h]

theorem dropWhile_length_lt (p : Char → Bool) (cs : List Char) (h : cs.takeWhile p ≠ []) :
    (cs.dropWhile p).length < cs.length := by
  have h1 : (cs.takeWhile p ++ cs.dropWhile p).length = cs.length := by
    rw [List.takeWhile_append_dropWhile]
  rw [List.length_append] at h1
  have h2 : 0 < (cs.takeWhile p).length := List.length_pos.mpr h
  omega

theorem durationGroup_consumes (frac : Nat → Nat → Nat → Nat) (orig : String) (c : Char)
    (cs : List Char) (d : Nat) (rest : List Char) (d1 : Nat)
    (h : durationGroup frac orig c cs d = .ok (rest, d1)) :
    rest.length < (c :: cs).length := by
  unfold durationGroup at h
  split at h
  · cases h
  · cases hli : leadingInt (c :: cs) 0 with
    | none => simp [hli] at h
    | some vr =>
      obtain ⟨v, s1⟩ := vr
      have hs1 : s1.length ≤ (c :: cs).length := leadingInt_length _ _ _ _ hli
      have hs2 := fractionPart_length s1
      simp only [hli] at h
      split at h
      · cases h
      · split at h
        · cases h
        · rename_i hu
          have hs3 := dropWhile_length_lt (fun x => !isDotOrDigit x) _ hu
          split at h
          · cases h
          · split at h
            · cases h
            · split at h
              · split at h
                · cases h
                · split at h
                  · cases h
                  · simp only [Except.ok.injEq, Prod.mk.injEq] at h
                    rw [← h.1]
                    omega
              · split at h
                · cases h
                · simp only [Except.ok.injEq, Prod.mk.injEq] at h
                  rw [← h.1]
                  omega

theorem parseDurationLoop_fuel (frac : Nat → Nat → Nat → Nat) (orig : String) :
    ∀ (fuel fuel1 : Nat) (cs : List Char) (d : Nat), cs.length ≤ fuel → cs.length ≤ fuel1 →
      parseDurationLoop frac orig fuel cs d = parseDurationLoop frac orig fuel1 cs d := by
  intro fuel
  induction fuel with
  | zero =>
    intro fuel1 cs d h0 _
    have : cs = [] := List.length_eq_zero.mp (Nat.le_zero.mp h0)
    subst this
    cases fuel1 <;> rfl
  | succ n ih =>
    intro fuel1 cs d h0 h1
    cases cs with
    | nil => cases fuel1 <;> rfl
    | cons c cs =>
      cases fuel1 with
      | zero => simp at h1
      | succ m =>
        simp only [parseDurationLoop]
        cases hg : durationGroup frac orig c cs d with
        | error e => rfl
        | ok r =>
          obtain ⟨rest, d1⟩ := r
          have hlt := durationGroup_consumes frac orig c cs d rest d1 hg
          simp only [List.length_cons] at hlt h0 h1
          exact ih m rest d1 (by omega) (by omega)

/-! ## Nested structures and nil pointers -/

theorem walk_leafAt_cases (w : World) (rule : FieldInfo → Leaf → Option (String × String))
    (s : Struct) :
    ∀ (p : List Nat) (info : FieldInfo) (v : Leaf), s.leafAt p = some (info, v) →
      (walk w rule s).1.leafAt p = some (info, v) ∨
      ∃ token context : String, rule info v = some (token, context) ∧
        (walk w rule s).1.leafAt p = some (info, (setValue w v token).1) := by
  induction s with
  | done => intro p info v h; simp [Struct.leafAt] at h
  | leaf i0 v0 rest ih =>
    intro p info v h
    match p, h with
    | [0], h =>
      simp only [Struct.leafAt, Option.some.injEq, Prod.mk.injEq] at h
      obtain ⟨rfl, rfl⟩ := h
      simp only [walk]
      cases hr0 : (if i0.canSet = true then rule i0 v0 else none) with
      | none => left; simp [Struct.leafAt]
      | some tc =>
        right
        have hrule : rule i0 v0 = some (tc.1, tc.2) := by
          by_cases hc : i0.canSet = true
          · simpa [hc] using hr0
          · simp [hc] at hr0
        refine ⟨tc.1, tc.2, hrule, ?_⟩
        cases he : (setValue w v0 tc.1).2 <;> simp [he, Struct.leafAt]
    | (i + 1) :: q, h =>
      simp only [Struct.leafAt] at h
      simp only [walk]
      cases hr0 : (if i0.canSet = true then rule i0 v0 else none) with
      | none => simpa [Struct.leafAt] using ih _ _ _ h
      | some tc =>
        cases he : (setValue w v0 tc.1).2 with
        | none => simpa [Struct.leafAt, he] using ih _ _ _ h
        | some e => left; simpa [Struct.leafAt, he] using h
  | nest i0 vp inner rest ihi ihr =>
    intro p info v h
    match p, h with
    | 0 :: q, h =>
      simp only [Struct.leafAt] at h
      simp only [walk]
      by_cases hs : i0.canSet = true
      · simp only [hs, if_true]
        cases he : (walk w rule inner).2 <;> simpa [Struct.leafAt] using ihi _ _ _ h
      · left; simpa [hs, Struct.leafAt] using h
    | (i + 1) :: q, h =>
      simp only [Struct.leafAt] at h
      simp only [walk]
      by_cases hs : i0.canSet = true
      · simp only [hs, if_true]
        cases he : (walk w rule inner).2 with
        | none => simpa [Struct.leafAt] using ihr _ _ _ h
        | some e => left; simpa [Struct.leafAt] using h
      · simpa [hs, Struct.leafAt] using ihr _ _ _ h

theorem walk_keeps_nil_pointer (w : World) (rule : FieldInfo → Leaf → Option (String × String))
    (s : Struct) (p : List Nat) (info : FieldInfo) (h : s.leafAt p = some (info, .nilPtr)) :
    (walk w rule s).1.leafAt p = some (info, .nilPtr) := by
  rcases walk_leafAt_cases w rule s p info .nilPtr h with h1 | ⟨token, context, _, h1⟩
  · exact h1
  · exact h1

theorem walk_nest_inner (w : World) (rule : FieldInfo → Leaf → Option (String × String))
    (info : FieldInfo) (viaPtr : Bool) (inner rest : Struct) (hc : info.canSet = true) :
    ∃ rest1 : Struct, (walk w rule (.nest info viaPtr inner rest)).1
      = .nest info viaPtr (walk w rule inner).1 rest1 := by
  simp only [walk, hc, if_true]
  cases (walk w rule inner).2 with
  | none => exact ⟨_, rfl⟩
  | some e => exact ⟨_, rfl⟩

/-- C11: in both walks a field that is a nil pointer is a nil pointer
afterwards, whatever its `default` and `env` tags are and whether or not the
walk fails (it is neither entered nor allocated); a nested structure in an
assignable field, held by value or through a non-nil pointer alike, leaves the
walk as the walk of its own fields leaves it; and when the walk returns nil
every assignable leaf at any depth, inside pointed-to structures too, has had
its rule applied. -/
theorem walks_recurse_and_keep_nil_pointers (w : World) (s : Struct) :
    (∀ (p : List Nat) (info : FieldInfo), s.leafAt p = some (info, .nilPtr) →
      (processDefaults w s).1.leafAt p = some (info, .nilPtr) ∧
      (processEnv w s).1.leafAt p = some (info, .nilPtr)) ∧
    (∀ (info : FieldInfo) (viaPtr : Bool) (inner rest : Struct),
      s = .nest info viaPtr inner rest → info.canSet = true →
      (∃ rest1 : Struct,
        (processDefaults w s).1 = .nest info viaPtr (processDefaults w inner).1 rest1) ∧
      (∃ rest1 : Struct,
        (processEnv w s).1 = .nest info viaPtr (processEnv w inner).1 rest1)) ∧
    (∀ (p : List Nat) (info : FieldInfo) (v : Leaf),
      s.leafAt p = some (info, v) → s.settableAt p = true →
      ((processDefaults w s).2 = none → info.defaultTag ≠ "" → isZero w v = true →
        (processDefaults w s).1.leafAt p = some (info, (setValue w v info.defaultTag).1)) ∧
      ((processEnv w s).2 = none → info.envTag ≠ "" → w.getenv info.envTag ≠ "" →
        (processEnv w s).1.leafAt p
          = some (info, (setValue w v (w.getenv info.envTag)).1))) := by
  refine ⟨?_, ?_, ?_⟩
  · intro p info h
    unfold processDefaults processEnv
    rw [setDefaults_eq_walk, setEnv_eq_walk]
    exact ⟨walk_keeps_nil_pointer w _ s p info h, walk_keeps_nil_pointer w _ s p info h⟩
  · intro info viaPtr inner rest hs hc
    subst hs
    unfold processDefaults processEnv
    simp only [setDefaults_eq_walk, setEnv_eq_walk]
    exact ⟨walk_nest_inner w _ info viaPtr inner rest hc,
      walk_nest_inner w _ info viaPtr inner rest hc⟩
  · intro p info v hp hs
    unfold processDefaults processEnv
    simp only [setDefaults_eq_walk, setEnv_eq_walk]
    constructor
    · intro hok hd hz
      exact (walk_leafAt_set w (defaultRule w) s p info v info.defaultTag
        ("failed to set default for field " ++ info.name) hok hp hs
        (by simp [defaultRule, hd, hz])).1
    · intro hok ht he
      exact (walk_leafAt_set w (envRule w) s p info v (w.getenv info.envTag)
        ("failed to set env " ++ info.envTag ++ " for field " ++ info.name) hok hp hs
        (by simp [envRule, ht, he])).1

/-- C11 witness: `DB` is a nil pointer with a `default` and an `env` tag and
`Cache` points to a structure whose `Port` has the default `"8080"`; with
`APP_DB` set, `processDefaults` and `processEnv` leave `DB` nil, and
`processDefaults` binds 8080 inside the structure `Cache` points to. -/
theorem walks_recurse_and_keep_nil_pointers_witness :
    (nestedConfig 0).leafAt [0] = some (dbInfo, .nilPtr) ∧
    (processDefaults (worldWithEnv (fun _ => some "replica")) (nestedConfig 0)).1.leafAt [0]
      = some (dbInfo, .nilPtr) ∧
    (processEnv (worldWithEnv (fun _ => some "replica")) (nestedConfig 0)).1.leafAt [0]
      = some (dbInfo, .nilPtr) ∧
    (processDefaults (worldWithEnv (fun _ => some "replica")) (nestedConfig 0)).1.leafAt [1, 0]
      = some (portInfo, .int .int 8080) :=
  ⟨by decide,
    ((walks_recurse_and_keep_nil_pointers (worldWithEnv (fun _ => some "replica"))
      (nestedConfig 0)).1 [0] dbInfo (by decide)).1,
    ((walks_recurse_and_keep_nil_pointers (worldWithEnv (fun _ => some "replica"))
      (nestedConfig 0)).1 [0] dbInfo (by decide)).2,
    by decide⟩

/-! ## Refresh: a successful tick -/

theorem zeroLeaf_zeroValued (v : Leaf) :
    (zeroLeaf v).zeroValued = true ∧ (zeroLeaf v).sameType v = true := by
  cases v <;> simp [zeroLeaf, Leaf.zeroValued, Leaf.sameType]

theorem zeroValued_unique (zv v : Leaf) (hz : zv.zeroValued = true)
    (ht : zv.sameType v = true) : zv = zeroLeaf v := by
  cases v <;> cases zv <;> simp [Leaf.sameType] at ht <;>
    simp [Leaf.zeroValued] at hz <;> simp [zeroLeaf, hz, ht]

theorem zeroValued_isZero (w : World) (v : Leaf) (hz : v.zeroValued = true)
    (hf : w.floatIsZero 0 = true) : isZero w v = true := by
  cases v <;> simp [Leaf.zeroValued] at hz <;> simp [isZero, hz, hf]

theorem zeroStruct_isZeroInstance (s : Struct) : isZeroInstanceOf (zeroStruct s) s = true := by
  induction s with
  | done => rfl
  | leaf info v rest ih =>
    simp [zeroStruct, isZeroInstanceOf, ih, (zeroLeaf_zeroValued v).1, (zeroLeaf_zeroValued v).2]
  | nest info vp inner rest ihi ihr =>
    cases vp with
    | false => simp [zeroStruct, isZeroInstanceOf, ihi, ihr]
    | true => simp [zeroStruct, isZeroInstanceOf, ihr]

theorem zeroInstance_unique (s : Struct) :
    ∀ z : Struct, isZeroInstanceOf z s = true → z = zeroStruct s := by
  induction s with
  | done =>
    intro z h
    cases z <;> simp [isZeroInstanceOf] at h
    rfl
  | leaf info v rest ih =>
    intro z h
    cases z with
    | done => simp [isZeroInstanceOf] at h
    | leaf zi zv zrest =>
      simp only [isZeroInstanceOf, Bool.and_eq_true, decide_eq_true_eq] at h
      obtain ⟨⟨⟨h1, h2⟩, h3⟩, h4⟩ := h
      simp only [zeroStruct, h1, zeroValued_unique zv v h2 h3, ih zrest h4]
    | nest zi zp zinner zrest => cases zp <;> simp [isZeroInstanceOf] at h
  | nest info vp inner rest ihi ihr =>
    intro z h
    cases vp with
    | false =>
      cases z with
      | done => simp [isZeroInstanceOf] at h
      | leaf zi zv zrest => simp [isZeroInstanceOf] at h
      | nest zi zp zinner zrest =>
        cases zp with
        | true => simp [isZeroInstanceOf] at h
        | false =>
          simp only [isZeroInstanceOf, Bool.and_eq_true, decide_eq_true_eq] at h
          obtain ⟨⟨h1, h2⟩, h3⟩ := h
          simp only [zeroStruct, h1, ihi zinner h2, ihr zrest h3]
    | true =>
      cases z with
      | done => simp [isZeroInstanceOf] at h
      | leaf zi zv zrest =>
        simp only [isZeroInstanceOf, Bool.and_eq_true, decide_eq_true_eq] at h
        obtain ⟨⟨h1, h2⟩, h3⟩ := h
        simp only [zeroStruct, h1, h2, ihr zrest h3]
      | nest zi zp zinner zrest => cases zp <;> simp [isZeroInstanceOf] at h

theorem zeroStruct_leaves_zeroValued (s : Struct) :
    ∀ (p : List Nat) (info : FieldInfo) (v : Leaf),
      (zeroStruct s).leafAt p = some (info, v) → v.zeroValued = true := by
  induction s with
  | done => intro p info v h; simp [zeroStruct, Struct.leafAt] at h
  | leaf i0 v0 rest ih =>
    intro p info v h
    match p, h with
    | [0], h =>
      simp only [zeroStruct, Struct.leafAt, Option.some.injEq, Prod.mk.injEq] at h
      rw [← h.2]
      exact (zeroLeaf_zeroValued v0).1
    | (i + 1) :: q, h =>
      simp only [zeroStruct, Struct.leafAt] at h
      exact ih _ _ _ h
  | nest i0 vp inner rest ihi ihr =>
    intro p info v h
    cases vp with
    | false =>
      match p, h with
      | 0 :: q, h =>
        simp only [zeroStruct, Struct.leafAt] at h
        exact ihi _ _ _ h
      | (i + 1) :: q, h =>
        simp only [zeroStruct, Struct.leafAt] at h
        exact ihr _ _ _ h
    | true =>
      match p, h with
      | [0], h =>
        simp only [zeroStruct, Struct.leafAt, Option.some.injEq, Prod.mk.injEq] at h
        rw [← h.2]
        rfl
      | (i + 1) :: q, h =>
        simp only [zeroStruct, Struct.leafAt] at h
        exact ihr _ _ _ h

theorem refresh_built_eq_load (w : World) (l : Loader) :
    (l.refresh w).built = (Loader.Load w { l with cfg := zeroStruct l.cfg }).1 ∧
    ((Loader.Load w { l with cfg := zeroStruct l.cfg }).2 = none → l.onUpdateFunc = true →
      (l.refresh w).callback = some (Loader.Load w { l with cfg := zeroStruct l.cfg }).1) ∧
    ((Loader.Load w { l with cfg := zeroStruct l.cfg }).2 ≠ none ∨ l.onUpdateFunc = false →
      (l.refresh w).callback = none) := by
  have hfs : ∀ t : Struct,
      Loader.fileStage w { l with cfg := zeroStruct l.cfg } t = l.fileStage w t := fun _ => rfl
  have hpd : processDefaults w ({ l with cfg := zeroStruct l.cfg } : Loader).cfg
      = processDefaults w (zeroStruct l.cfg) := rfl
  unfold Loader.refresh Loader.Load
  simp only [hfs, hpd]
  cases h1 : (processDefaults w (zeroStruct l.cfg)).2 with
  | some e => simp
  | none =>
    simp only []
    cases h2 : (l.fileStage w (processDefaults w (zeroStruct l.cfg)).1).2 with
    | some e => simp
    | none =>
      simp only []
      cases h3 : (processEnv w (l.fileStage w (processDefaults w (zeroStruct l.cfg)).1).1).2 with
      | some e => simp
      | none =>
        simp only []
        refine ⟨trivial, ?_, ?_⟩
        · intro _ hcb
          simp [hcb]
        · rintro (hf | hn)
          · exact absurd rfl hf
          · simp [hn]

/-- C12: let `z` be the zero value of the schema of `l.cfg`: the same fields,
every leaf the zero value of its type, pointers to structures nil.  Such a `z`
exists and is the structure `refresh` allocates.  `refresh` never changes
`l.cfg`; the instance it builds is, in every case, what `Load` leaves when run
on a loader with the same file path bound to `z`; when that `Load` returns nil
its result is the environment layer applied to the file layer applied to the
defaults layer on `z`, and `refresh` on a loader with a registered callback
invokes the callback, once, with exactly that instance; when that `Load` fails,
or no callback is registered, nothing is invoked. -/
theorem refresh_equals_fresh_load (w : World) (l : Loader) (z : Struct)
    (hz : isZeroInstanceOf z l.cfg = true) :
    (l.refresh w).cfg = l.cfg ∧
    isZeroInstanceOf (zeroStruct l.cfg) l.cfg = true ∧
    (∀ (p : List Nat) (info : FieldInfo) (v : Leaf), z.leafAt p = some (info, v) →
      v.zeroValued = true ∧ (w.floatIsZero 0 = true → isZero w v = true)) ∧
    (l.refresh w).built = (Loader.Load w { l with cfg := z }).1 ∧
    ((Loader.Load w { l with cfg := z }).2 = none →
      (Loader.Load w { l with cfg := z }).1
        = (processEnv w (l.fileStage w (processDefaults w z).1).1).1 ∧
      (l.onUpdateFunc = true →
        (l.refresh w).callback = some (Loader.Load w { l with cfg := z }).1)) ∧
    ((Loader.Load w { l with cfg := z }).2 ≠ none ∨ l.onUpdateFunc = false →
      (l.refresh w).callback = none) := by
  have hzeq : z = zeroStruct l.cfg := zeroInstance_unique l.cfg z hz
  subst hzeq
  obtain ⟨hb, hcb, hnone⟩ := refresh_built_eq_load w l
  refine ⟨?_, zeroStruct_isZeroInstance l.cfg, ?_, hb, ?_, hnone⟩
  · unfold Loader.refresh
    cases (processDefaults w (zeroStruct l.cfg)).2 with
    | some e => rfl
    | none =>
      simp only []
      cases (l.fileStage w (processDefaults w (zeroStruct l.cfg)).1).2 with
      | some e => rfl
      | none =>
        simp only []
        cases (processEnv w (l.fileStage w (processDefaults w (zeroStruct l.cfg)).1).1).2 <;> rfl
  · intro p info v hp
    have hv := zeroStruct_leaves_zeroValued l.cfg p info v hp
    exact ⟨hv, zeroValued_isZero w v hv⟩
  · intro hok
    exact ⟨(load_ok_stages w { l with cfg := zeroStruct l.cfg } hok).2.2.2, hcb hok⟩

/-- C12 witness: the loader is bound to a structure whose `Port` holds 1234,
the environment is empty, no file is configured and a callback is registered.
The zero value of the schema holds 0 in `Port`; `Load` binds the default 8080
in it, and the tick invokes the callback with that instance, not with one
holding 1234, while the bound structure still holds 1234.  The zero value of a
schema with pointers to structures has nil in their place. -/
theorem refresh_equals_fresh_load_witness :
    isZeroInstanceOf (portConfig 0) (portConfig 1234) = true ∧
    (Loader.Load emptyWorld ⟨"", portConfig 0, true⟩).2 = none ∧
    (Loader.refresh emptyWorld ⟨"", portConfig 1234, true⟩).callback
      = some (portConfig 8080) ∧
    (Loader.refresh emptyWorld ⟨"", portConfig 1234, true⟩).cfg = portConfig 1234 ∧
    isZeroInstanceOf (.leaf dbInfo .nilPtr (.leaf cacheInfo .nilPtr .done))
      (.nest dbInfo true (portConfig 5) (nestedConfig 5)) = false ∧
    isZeroInstanceOf (.leaf dbInfo .nilPtr (.leaf dbInfo .nilPtr (.leaf cacheInfo .nilPtr .done)))
      (.nest dbInfo true (portConfig 5) (nestedConfig 5)) = true :=
  ⟨by decide, by decide,
    (((refresh_equals_fresh_load emptyWorld ⟨"", portConfig 1234, true⟩ (portConfig 0)
      (by decide)).2.2.2.2.1 (by decide)).2 rfl).trans (by decide),
    (refresh_equals_fresh_load emptyWorld ⟨"", portConfig 1234, true⟩ (portConfig 0)
      (by decide)).1,
    by decide, by decide⟩

/-! ## Integer fields narrower than 64 bits -/

theorem wrapInt_64_of_range (x : Int) (hlo : -(2 ^ 63) ≤ x) (hhi : x < 2 ^ 63) :
    wrapInt 64 x = x := by
  unfold wrapInt
  norm_num at hlo hhi ⊢
  omega

theorem setValue_int_stores_wrapped (w : World) (t : IntType) (i n : Int) (s : String)
    (h : parseInt s = .ok n) :
    setValue w (.int t i) s = (.int t (wrapInt t.bits (base10Value s)), none) ∧
    (t.bits = 64 → setValue w (.int t i) s = (.int t (base10Value s), none)) := by
  obtain ⟨_, hv, hlo, hhi⟩ := (parseInt_ok_iff s n).mp h
  subst hv
  have h1 : setValue w (.int t i) s = (.int t (wrapInt t.bits (base10Value s)), none) := by
    simp only [setValue, h]
  refine ⟨h1, ?_⟩
  intro hb
  rw [h1, hb, wrapInt_64_of_range _ hlo hhi]

theorem setValue_uint_stores_wrapped (w : World) (t : UintType) (k n : Nat) (s : String)
    (h : parseUint s = .ok n) :
    setValue w (.uint t k) s = (.uint t (decimalValue s.toList % 2 ^ t.bits), none) := by
  obtain ⟨_, hv, _⟩ := (parseUint_ok_iff s n).mp h
  subst hv
  simp only [setValue, h, wrapUint]

/-- C15: the code at the failing inputs.  `300` and `256` are base-10 integers
denoting 300 and 256; `setValue` returns nil on an `int8` field given `"300"`
and leaves 44 in it, returns nil on a `uint8` field given `"256"` and leaves 0
in it, and `processEnv` with `LEVEL=300` binds 44 to the `int8` field `Level`
without an error. -/
theorem setValue_narrow_field_wraps :
    isBase10Integer "300" = true ∧ base10Value "300" = 300 ∧
    setValue emptyWorld (.int .int8 0) "300" = (.int .int8 44, none) ∧
    isBase10Unsigned "256" = true ∧ decimalValue "256".toList = 256 ∧
    setValue emptyWorld (.uint .uint8 7) "256" = (.uint .uint8 0, none) ∧
    processEnv (worldWithEnv (levelEnv "300")) (levelConfig 0) = (levelConfig 44, none) := by
  decide

end Config

namespace Graceful

/-! ## Shutdown order -/

theorem stopFrom_append (xs ys : List Component) :
    ∀ n : Nat, n ≤ xs.length → stopFrom (xs ++ ys) n = stopFrom xs n := by
  intro n
  induction n with
  | zero => intro _; rfl
  | succ i ih =>
    intro h
    have hi : i < xs.length := h
    simp only [stopFrom, List.getElem?_append_left hi, ih (Nat.le_of_lt hi)]

theorem stopFrom_all (xs : List Component) :
    stopFrom xs xs.length = (xs.enum.map (fun ic => Event.stop ic.1 ic.2)).reverse := by
  induction xs using List.reverseRecOn with
  | nil => rfl
  | append_singleton xs a ih =>
    have hlen : (xs ++ [a]).length = xs.length + 1 := by simp
    have hget : (xs ++ [a])[xs.length]? = some a := by simp
    rw [hlen]
    simp only [stopFrom, hget, stopFrom_append xs [a] xs.length (Nat.le_refl _), ih,
      List.enum_append, List.enumFrom_singleton, List.map_append, List.map_cons, List.map_nil,
      List.reverse_append, List.reverse_cons, List.reverse_nil, List.nil_append,
      List.singleton_append]

theorem register_all (css : List (List Component)) :
    ∀ g : Graceful, (css.foldl Register g).comps = g.comps ++ css.flatten := by
  induction css with
  | nil => intro g; simp
  | cons cs css ih =>
    intro g
    simp only [List.foldl_cons, ih, Register, List.flatten_cons, List.append_assoc]

theorem startFrom_ok (cs : List Component) :
    ∀ k : Nat, (∀ x ∈ cs, x.startResult = none) →
      startFrom k cs = ((cs.enumFrom k).map (fun ic => Event.start ic.1 ic.2), none) := by
  induction cs with
  | nil => intro k _; rfl
  | cons c cs ih =>
    intro k h
    have hc : c.startResult = none := h c (by simp)
    have hrest := ih (k + 1) (fun x hx => h x (by simp [hx]))
    simp only [startFrom, hc, hrest, List.enumFrom_cons, List.map_cons]

theorem startFrom_fail (pre : List Component) (c : Component) (post : List Component)
    (e : Config.GoError) (hc : c.startResult = some e) :
    ∀ k : Nat, (∀ x ∈ pre, x.startResult = none) →
      startFrom k (pre ++ c :: post)
        = (((pre ++ [c]).enumFrom k).map (fun ic => Event.start ic.1 ic.2), some e) := by
  induction pre with
  | nil =>
    intro k _
    simp only [List.nil_append, startFrom, hc, List.enumFrom_cons, List.enumFrom_nil,
      List.map_cons, List.map_nil]
  | cons a pre ih =>
    intro k h
    have ha : a.startResult = none := h a (by simp)
    have hrest := ih (k + 1) (fun x hx => h x (by simp [hx]))
    show startFrom k (a :: (pre ++ c :: post)) = _
    simp only [startFrom, ha, hrest, List.cons_append, List.enumFrom_cons, List.map_cons]

/-- C13: `stopAll` returns nil and calls `Stop` on the components from the last
registered to the first, each position of `g.comps` once, whatever the calls
return; `g.comps` is the concatenation, in order, of the arguments of the
`Register` calls; and `Run`, once every `Start` has returned nil and the context
is done, makes exactly these calls and returns nil. -/
theorem stopAll_reverse_order (g : Graceful) :
    (stopAll g).2 = none ∧
    (stopAll g).1 = (g.comps.enum.map (fun ic => Event.stop ic.1 ic.2)).reverse ∧
    (∀ css : List (List Component), (css.foldl Register New).comps = css.flatten) ∧
    ((startFrom 0 g.comps).2 = none →
      Run g = ((startFrom 0 g.comps).1 ++ [Event.waitDone] ++
        (g.comps.enum.map (fun ic => Event.stop ic.1 ic.2)).reverse, none)) := by
  have hstop : (stopAll g).1 = (g.comps.enum.map (fun ic => Event.stop ic.1 ic.2)).reverse :=
    stopFrom_all g.comps
  refine ⟨rfl, hstop, ?_, ?_⟩
  · intro css
    rw [register_all css New]
    rfl
  · intro h
    unfold Run
    simp only [h, hstop]
    rfl

/-- C13 witness: three components registered in two calls, the second with a
failing `Stop`; `stopAll` stops the third, then the second, then the first, and
returns nil. -/
theorem stopAll_reverse_order_witness :
    (startFrom 0 (Register (Register New [okComponent "c1"])
      [failStopComponent "c2", okComponent "c3"]).comps).2 = none ∧
    stopAll (Register (Register New [okComponent "c1"])
      [failStopComponent "c2", okComponent "c3"])
      = ([Event.stop 2 (okComponent "c3"), Event.stop 1 (failStopComponent "c2"),
          Event.stop 0 (okComponent "c1")], none) ∧
    Run (Register (Register New [okComponent "c1"])
      [failStopComponent "c2", okComponent "c3"])
      = ([Event.start 0 (okComponent "c1"), Event.start 1 (failStopComponent "c2"),
          Event.start 2 (okComponent "c3"), Event.waitDone,
          Event.stop 2 (okComponent "c3"), Event.stop 1 (failStopComponent "c2"),
          Event.stop 0 (okComponent "c1")], none) :=
  ⟨by decide, by decide,
    ((stopAll_reverse_order (Register (Register New [okComponent "c1"])
      [failStopComponent "c2", okComponent "c3"])).2.2.2 (by decide)).trans (by decide)⟩

/-! ## Start order -/

/-- C14: `Run` calls `Start` on the components in registration order; when the
`Start` of a component returns an error after every earlier `Start` returned
nil, `Run` returns that error, having started the components up to and
including that one and done nothing else: no later `Start`, no wait for the
context, no `Stop`; when no `Start` fails, every component is started in order
before the wait. -/
theorem run_starts_in_order (g : Graceful) :
    (∀ (pre : List Component) (c : Component) (post : List Component) (e : Config.GoError),
      g.comps = pre ++ c :: post → (∀ x ∈ pre, x.startResult = none) →
      c.startResult = some e →
      Run g = (((pre ++ [c]).enum.map (fun ic => Event.start ic.1 ic.2)), some e)) ∧
    ((∀ x ∈ g.comps, x.startResult = none) →
      Run g = (g.comps.enum.map (fun ic => Event.start ic.1 ic.2) ++ [Event.waitDone] ++
        (g.comps.enum.map (fun ic => Event.stop ic.1 ic.2)).reverse, none)) := by
  constructor
  · intro pre c post e hg hpre hc
    have h := startFrom_fail pre c post e hc 0 hpre
    unfold Run
    rw [hg, h]
    rfl
  · intro hall
    have h := startFrom_ok g.comps 0 hall
    unfold Run
    rw [h]
    simp only [stopAll, stopFrom_all]
    rfl

/-- C14 witness: the second of three components fails to start; `Run` returns
its error after starting the first two and nothing else. -/
theorem run_starts_in_order_witness :
    Run ⟨[okComponent "a", failStartComponent "b", okComponent "c"]⟩
      = ([Event.start 0 (okComponent "a"), Event.start 1 (failStartComponent "b")],
          some (.external "start failed")) :=
  ((run_starts_in_order ⟨[okComponent "a", failStartComponent "b", okComponent "c"]⟩).1
    [okComponent "a"] (failStartComponent "b") [okComponent "c"] (.external "start failed")
    rfl (by decide) rfl).trans (by decide)

end Graceful
